import Mathlib

/-!
Verification development for the DocumentGenerationTool backend
(`Vendor_agreement.py` and `main.py`).

The embedding works on `List Char` (`String.data`), mirroring Python string
semantics character by character.  Regular-expression rules are embedded as
dedicated search functions that reproduce Python `re.search` semantics for the
fixed patterns in the source: leftmost match wins, alternatives are tried in
the written order, greedy and lazy quantifiers backtrack as the engine does.
Character classes are modelled at ASCII granularity (the inputs exercised here
are ASCII apart from the currency symbols, which are handled explicitly).

Python exceptions are modelled with `Except String`; raising `AttributeError`
or `ValueError` becomes `Except.error` carrying `str(e)`.
-/

abbrev Chars := List Char

/-- Python `str.strip()` on the left: drop leading whitespace. -/
def stripLeftC (s : Chars) : Chars := s.dropWhile Char.isWhitespace

/-- Python `str.strip()`: drop leading and trailing whitespace. -/
def stripC (s : Chars) : Chars :=
  ((s.dropWhile Char.isWhitespace).reverse.dropWhile Char.isWhitespace).reverse

/-- Case-insensitive literal match: `pat` is given lowercase; on success
returns the rest of the text after the literal (Python `re` with
`re.IGNORECASE`, literal part of a pattern). -/
def matchLit : Chars → Chars → Option Chars
  | [], s => some s
  | _ :: _, [] => none
  | p :: ps, c :: cs => if c.toLower = p then matchLit ps cs else none

/-- Try a pattern attempt at every position, leftmost first (`re.search`). -/
def searchPos {α : Type} (attempt : Chars → Option α) : Chars → Option α
  | [] => attempt []
  | c :: cs =>
    match attempt (c :: cs) with
    | some r => some r
    | none => searchPos attempt cs

/-- The class `[: ]` (exactly one colon or space). -/
def afterSep : Chars → Option Chars
  | [] => none
  | c :: cs => if c = ':' || c = ' ' then some cs else none

/-- `[A-Za-z0-9 &]` from the buyer/supplier patterns. -/
def nameChar (c : Char) : Bool := c.isAlphanum || c = ' ' || c = '&'

/-- `\w` (ASCII granularity). -/
def wordChar (c : Char) : Bool := c.isAlphanum || c = '_'

/-- The lookahead alternatives `(?=\n|,|\.|$)`. -/
def stopChar (c : Char) : Bool := c = '\n' || c = ',' || c = '.'

/-- The lazy capture `(.+?)(?=\n|,|\.|$)`: at least one character, `.` does not
match a newline, and the capture ends at the first position where the
lookahead holds. -/
def lazyCapture : Chars → Option Chars
  | [] => none
  | c :: cs => if c = '\n' then none else some (c :: cs.takeWhile (fun d => !stopChar d))

/-- `(?:buyer|purchaser)[: ]([A-Za-z0-9 &]+)` attempted at one position. -/
def attemptBuyer (s : Chars) : Option Chars :=
  let go (r : Chars) : Option Chars :=
    match afterSep r with
    | none => none
    | some r₁ =>
      match r₁.takeWhile nameChar with
      | [] => none
      | cap => some cap
  (matchLit "buyer".data s >>= go) <|> (matchLit "purchaser".data s >>= go)

/-- `(?:supplier|vendor)[: ]([A-Za-z0-9 &]+)` attempted at one position. -/
def attemptSupplier (s : Chars) : Option Chars :=
  let go (r : Chars) : Option Chars :=
    match afterSep r with
    | none => none
    | some r₁ =>
      match r₁.takeWhile nameChar with
      | [] => none
      | cap => some cap
  (matchLit "supplier".data s >>= go) <|> (matchLit "vendor".data s >>= go)

/-- One keyword alternative of a `(?:kw…)[: ](.+?)(?=\n|,|\.|$)` rule. -/
def attemptLazyRule : List String → Chars → Option Chars
  | [], _ => none
  | k :: ks, s =>
    ((matchLit k.data s >>= afterSep) >>= lazyCapture) <|> attemptLazyRule ks s

/-- `#?\w+` with the backtracking of the greedy optional `#`. -/
def poBody (t : Chars) : Option Chars :=
  (match t with
   | '#' :: cs =>
     match cs.takeWhile wordChar with
     | [] => none
     | w => some ('#' :: w)
   | _ => none) <|>
  (match t.takeWhile wordChar with
   | [] => none
   | w => some w)

/-- `(?:PO|purchase order)[: ]?(#?\w+)` attempted at one position. -/
def attemptPO (s : Chars) : Option Chars :=
  let afterKw (r : Chars) : Option Chars := (afterSep r >>= poBody) <|> poBody r
  (matchLit "po".data s >>= afterKw) <|> (matchLit "purchase order".data s >>= afterKw)

/-- `\d[\d,]*`. -/
def digitsCap : Chars → Option Chars
  | [] => none
  | c :: cs =>
    if c.isDigit then some (c :: cs.takeWhile (fun d => d.isDigit || d = ',')) else none

/-- `(₹|\$|€)?(\d[\d,]*)`: first capture group is the optional currency
symbol (`none` when the group did not participate), second the digits. -/
def curTry (t : Chars) : Option (Option Char × Chars) :=
  (match t with
   | c :: cs =>
     if c = '₹' || c = '$' || c = '€' then
       (digitsCap cs).map (fun d => (some c, d))
     else none
   | [] => none) <|>
  (digitsCap t).map (fun d => ((none : Option Char), d))

/-- `(?:price|amount|value)[: ]?(₹|\$|€)?(\d[\d,]*)` attempted at one
position, with the backtracking of the two greedy optionals. -/
def attemptPrice (s : Chars) : Option (Option Char × Chars) :=
  let afterKw (r : Chars) : Option (Option Char × Chars) :=
    (afterSep r >>= curTry) <|> curTry r
  (matchLit "price".data s >>= afterKw) <|> (matchLit "amount".data s >>= afterKw) <|>
    (matchLit "value".data s >>= afterKw)

/-- `_placeholder` from `Vendor_agreement.py` (`label.upper()` taken
character by character). -/
def _placeholder (label : String) : String :=
  "[" ++ String.mk (label.data.map Char.toUpper) ++ "]"

/-- `match.group(1).strip() if match else ""` followed by Python `or fallback`
(the empty string is falsy). -/
def resolveCap (cap : Option Chars) (fallback : String) : String :=
  match cap with
  | none => fallback
  | some c =>
    match stripC c with
    | [] => fallback
    | t => String.mk t

/-- The 9-key mapping produced by `_parse_user_prompt` (every key present). -/
structure ExtractedFields where
  buyer_name : String
  supplier_name : String
  product : String
  po_reference : String
  price : String
  payment_terms : String
  effective_date : String
  delivery : String
  quality_standards : String
deriving DecidableEq, Repr

/-- The buyer_name entry of `_parse_user_prompt`'s dict, as a function of the
prompt. -/
def buyer_name_of (user_prompt : String) : String :=
  resolveCap (searchPos attemptBuyer user_prompt.data) (_placeholder "buyer name")

/-- `_parse_user_prompt`.  The price rule's first capture group is the
optional currency symbol; `_extract_pattern` calls `.strip()` on it and so
raises `AttributeError` whenever the rule matches without a symbol — this is
modelled by `Except.error` with Python's message. -/
def _parse_user_prompt (user_prompt : String) : Except String ExtractedFields :=
  let s := user_prompt.data
  match searchPos attemptPrice s with
  | some (none, _) => Except.error "\x27NoneType\x27 object has no attribute \x27strip\x27"
  | pr =>
    Except.ok
      { buyer_name := buyer_name_of user_prompt
        supplier_name := resolveCap (searchPos attemptSupplier s) (_placeholder "supplier name")
        product :=
          resolveCap (searchPos (attemptLazyRule ["product", "item", "scope"]) s)
            (_placeholder "product description")
        po_reference := resolveCap (searchPos attemptPO s) (_placeholder "PO reference")
        price :=
          match pr with
          | some (some c, _) => resolveCap (some [c]) (_placeholder "total value")
          | _ => _placeholder "total value"
        payment_terms :=
          resolveCap (searchPos (attemptLazyRule ["payment terms", "payment"]) s)
            (_placeholder "payment terms")
        effective_date :=
          resolveCap (searchPos (attemptLazyRule ["effective date", "start date"]) s)
            (_placeholder "effective date")
        delivery :=
          resolveCap (searchPos (attemptLazyRule ["delivery", "shipping"]) s)
            (_placeholder "delivery schedule and address")
        quality_standards :=
          resolveCap (searchPos (attemptLazyRule ["quality standards", "standards"]) s)
            "ISO 22000 and FSSAI food safety standards" }

/-- The timestamp-derived identifiers of a `DocumentGenerator` instance.
Modelled from the spec: `datetime.now()` is not statable, so an instance
carries the three strings computed at construction; `refGen` below fixes a
reference construction instant. -/
structure DocumentGenerator where
  today : String
  one_year_later : String
  contract_id : String
deriving DecidableEq

/-- A generator constructed at a fixed reference instant. -/
def refGen : DocumentGenerator :=
  { today := "July 01, 2025", one_year_later := "July 01, 2026",
    contract_id := "CTR-2025-0701" }

/-- The render-time `.get` defaults of `self.parsed_prompt`; they model the
fresh instance state `parsed_prompt = {}` (a total record stands for a dict
queried only through `.get(key, default)`). -/
def defaultFields : ExtractedFields :=
  { buyer_name := "[BUYER NAME]", supplier_name := "[SUPPLIER NAME]",
    product := "[PRODUCT DESCRIPTION]", po_reference := "[PO REFERENCE]",
    price := "[TOTAL VALUE]", payment_terms := "[PAYMENT TERMS]",
    effective_date := "[EFFECTIVE DATE]",
    delivery := "[DELIVERY SCHEDULE AND ADDRESS]",
    quality_standards := "ISO 22000 and FSSAI food safety standards" }

def _generate_title_block : String :=
  "[TITLE BLOCK START]\nVendor Supply Agreement\n[TITLE BLOCK END]"

def _generate_contract_id (g : DocumentGenerator) : String :=
  "[CONTRACT ID BLOCK START]\nContract ID: " ++ g.contract_id ++
    "\nEffective Date: " ++ g.today ++ "\nEnd Date: " ++ g.one_year_later ++
    "\n[CONTRACT ID BLOCK END]\n"

def _generate_parties_intro : String :=
  "[PARTIES INTRO BLOCK START]\nThis Agreement is made between:\n[PARTIES INTRO BLOCK END]"

def _generate_buyer_block (f : ExtractedFields) : String :=
  "[BUYER BLOCK START]\nBuyer:\nEnterprise Name: " ++ f.buyer_name ++
    "\nAddress: [BUYER ADDRESS]\nAuthorized Representative: [BUYER REPRESENTATIVE]\n[BUYER BLOCK END]"

def _generate_supplier_block (f : ExtractedFields) : String :=
  "[SUPPLIER BLOCK START]\nSupplier:\nVendor Name: " ++ f.supplier_name ++
    "\nAddress: [SUPPLIER ADDRESS]\nAuthorized Representative: [SUPPLIER REPRESENTATIVE]\n[SUPPLIER BLOCK END]"

def _generate_scope_block (f : ExtractedFields) : String :=
  "[SCOPE BLOCK START]\n1. Scope of Agreement\nSupplier agrees to supply " ++
    f.product ++
    " as per the specifications and quantities defined in PO-" ++
    f.po_reference ++
    ". Product must meet the food-grade quality standards prescribed by FSSAI.\n[SCOPE BLOCK END]"

def _generate_commercial_block (f : ExtractedFields) : String :=
  "[COMMERCIAL BLOCK START]\n2. Commercial Terms\nTotal Order Value: ₹" ++
    f.price ++ "\nPayment Terms: " ++ f.payment_terms ++
    "\nPrice Validity: Fixed for the contract period\nTaxes: Inclusive of GST (18%)\n[COMMERCIAL BLOCK END]"

def _generate_delivery_block (f : ExtractedFields) : String :=
  "[DELIVERY BLOCK START]\n3. Delivery Terms\nDelivery Schedule: " ++
    f.delivery ++
    "\nDelivery Address: [SPECIFY DELIVERY ADDRESS]\nDelivery Delays: Subject to penalty of ₹2,000 per day beyond 3-day grace period\n[DELIVERY BLOCK END]"

def _generate_quality_block (f : ExtractedFields) : String :=
  "[QUALITY BLOCK START]\n4. Quality Assurance\nSupplier must adhere to " ++
    f.quality_standards ++
    "\nBuyer reserves the right to conduct periodic inspections\nRejected material will be returned at supplier\x27s cost within 7 days\n[QUALITY BLOCK END]"

def _generate_penalties_block : String :=
  "[PENALTIES BLOCK START]\n5. Penalties & Liabilities\nPenalty Clause: 5% deduction for any batch with more than 2% foreign matter\nInsurance: Supplier shall insure all shipments against transit damage\nIndemnity: Supplier will indemnify the buyer against any third-party claims due to quality failure\n[PENALTIES BLOCK END]"

def _generate_confidentiality_block : String :=
  "[CONFIDENTIALITY BLOCK START]\n6. Confidentiality\nBoth parties agree to maintain the confidentiality of all business information\nexchanged under this agreement and not disclose it to third parties without\nprior written consent. This obligation survives termination of the agreement.\n[CONFIDENTIALITY BLOCK END]"

/-- `"\n\n".join(...)` over the eleven rendered blocks. -/
def generated_content (g : DocumentGenerator) (f : ExtractedFields) : String :=
  _generate_title_block ++ "\n\n" ++ _generate_contract_id g ++ "\n\n" ++
    _generate_parties_intro ++ "\n\n" ++ _generate_buyer_block f ++ "\n\n" ++
    _generate_supplier_block f ++ "\n\n" ++ _generate_scope_block f ++ "\n\n" ++
    _generate_commercial_block f ++ "\n\n" ++ _generate_delivery_block f ++ "\n\n" ++
    _generate_quality_block f ++ "\n\n" ++ _generate_penalties_block ++ "\n\n" ++
    _generate_confidentiality_block

/-- `" BLOCK START]"` from the block regex. -/
def bsPat : Chars := " BLOCK START]".data

/-- `" BLOCK END]"` from the block regex. -/
def bePat : Chars := " BLOCK END]".data

/-- Split at the first occurrence of `pat`: returns the text before the
occurrence and the text after it. -/
def splitFirst (pat : Chars) : Chars → Option (Chars × Chars)
  | [] => none
  | c :: r =>
    if pat.isPrefixOf (c :: r) then some ([], (c :: r).drop pat.length)
    else
      match splitFirst pat r with
      | some (b, a) => some (c :: b, a)
      | none => none

/-- The lazy `(.*?)\[.*? BLOCK END\]` tail of the block regex: the content
capture grows until the first `[` from which a ` BLOCK END]` marker is still
reachable; the closing part then consumes lazily up to that marker. -/
def contentScan : Chars → Option (Chars × Chars)
  | [] => none
  | c :: r =>
    if c = '[' then
      match splitFirst bePat r with
      | some (_, a) => some ([], a)
      | none =>
        match contentScan r with
        | some (b, a) => some (c :: b, a)
        | none => none
    else
      match contentScan r with
      | some (b, a) => some (c :: b, a)
      | none => none

/-- One attempt of `\[(.*?) BLOCK START\](.*?)\[.*? BLOCK END\]` just after a
`[`: lazy name capture up to the first ` BLOCK START]`, then the content and
closing scan.  (If the closing scan fails for the first name split it fails
for every longer one, so no name backtracking is needed.) -/
def matchBlock (r : Chars) : Option (Chars × Chars × Chars) :=
  match splitFirst bsPat r with
  | none => none
  | some (n, r₁) =>
    match contentScan r₁ with
    | none => none
    | some (b, rest) => some (n, b, rest)

/-- `re.findall` for the block pattern: scan left to right, emit each match,
resume after its end.  `fuel` only bounds the recursion; every step consumes
at least one character, so `fuel = length` always suffices. -/
def findAllAux : Nat → Chars → List (Chars × Chars)
  | 0, _ => []
  | _ + 1, [] => []
  | fuel + 1, c :: r =>
    if c = '[' then
      match matchBlock r with
      | some (n, b, rest) => (n, b) :: findAllAux fuel rest
      | none => findAllAux fuel r
    else findAllAux fuel r

def findAllBlocks (s : Chars) : List (Chars × Chars) := findAllAux s.length s

/-- `block_type.lower().replace(" ", "_")`. -/
def normalizeKey (n : Chars) : String :=
  String.mk (n.map (fun c => if c.toLower = ' ' then '_' else c.toLower))

/-- The eleven recognized block keys, in the dict's insertion order. -/
def blockKeys : List String :=
  ["title", "contract_id", "parties_intro", "buyer", "supplier", "scope",
   "commercial", "delivery", "quality", "penalties", "confidentiality"]

def initBlocks : List (String × String) := blockKeys.map (fun k => (k, ""))

/-- `blocks[block_key] = …` guarded by `if block_key in blocks`. -/
def setBlock : List (String × String) → String → String → List (String × String)
  | [], _, _ => []
  | (k, v) :: rest, key, val =>
    if k = key then (k, val) :: rest else (k, v) :: setBlock rest key val

def storeBlocks (found : List (Chars × Chars)) : List (String × String) :=
  found.foldl (fun acc nb => setBlock acc (normalizeKey nb.1) (String.mk (stripC nb.2)))
    initBlocks

/-- The validation loop: first key whose stored text is empty. -/
def firstEmpty : List (String × String) → Option String
  | [] => none
  | (k, v) :: rest => if v = "" then some k else firstEmpty rest

/-- `_parse_to_blocks` with its `ValueError` modelled as `Except.error`. -/
def _parse_to_blocks (content : String) : Except String (List (String × String)) :=
  let blocks := storeBlocks (findAllBlocks content.data)
  match firstEmpty blocks with
  | some k => Except.error ("Missing required block: " ++ k)
  | none => Except.ok blocks

/-- `generate_agreement` (the print statement is side-effect-free). -/
def generate_agreement (g : DocumentGenerator) (user_prompt : String) :
    Except String (List (String × String)) :=
  match _parse_user_prompt user_prompt with
  | Except.error e => Except.error e
  | Except.ok f => _parse_to_blocks (generated_content g f)

/-- The three JSON response shapes of `GET /generate_block/{block_name}`. -/
inductive BlockResponse where
  | success (key body : String)
  | statusError (message : String)
  | invalidName
deriving DecidableEq

/-- The dispatch chain of `generate_single_block`; `none` is the
`"Invalid block name"` branch. -/
def pickBlock (g : DocumentGenerator) (st : ExtractedFields) (block_name : String) :
    Option String :=
  if block_name = "title" then some _generate_title_block
  else if block_name = "contract_id" then some (_generate_contract_id g)
  else if block_name = "parties_intro" then some _generate_parties_intro
  else if block_name = "buyer" then some (_generate_buyer_block st)
  else if block_name = "supplier" then some (_generate_supplier_block st)
  else if block_name = "scope" then some (_generate_scope_block st)
  else if block_name = "commercial" then some (_generate_commercial_block st)
  else if block_name = "delivery" then some (_generate_delivery_block st)
  else if block_name = "quality" then some (_generate_quality_block st)
  else if block_name = "penalties" then some (_generate_penalties_block)
  else if block_name = "confidentiality" then some (_generate_confidentiality_block)
  else none

def lookupBlock : List (String × String) → String → String
  | [], _ => ""
  | (k, v) :: rest, key => if k = key then v else lookupBlock rest key

/-- `generate_single_block` from `main.py`.  `st` is the shared instance's
`parsed_prompt` at request time; the handler calls `_parse_user_prompt` but
discards its result (it can still raise), then renders from the stale state. -/
def generate_single_block (g : DocumentGenerator) (st : ExtractedFields)
    (block_name user_prompt : String) : BlockResponse :=
  if user_prompt = "" then
    BlockResponse.statusError "user_prompt parameter is required"
  else
    match _parse_user_prompt user_prompt with
    | Except.error e => BlockResponse.statusError e
    | Except.ok _ =>
      match pickBlock g st block_name with
      | none => BlockResponse.invalidName
      | some content =>
        match _parse_to_blocks content with
        | Except.error e => BlockResponse.statusError e
        | Except.ok parsed => BlockResponse.success block_name (lookupBlock parsed block_name)

/-- Substring test, used to state containment properties of block bodies. -/
def hasSub (pat : Chars) : Chars → Bool
  | [] => pat.isPrefixOf []
  | c :: r => pat.isPrefixOf (c :: r) || hasSub pat r

/-- Observe one block of a generation result (`none` when generation raised). -/
def getBlockRes (r : Except String (List (String × String))) (key : String) :
    Option String :=
  match r with
  | Except.error _ => none
  | Except.ok bs => some (lookupBlock bs key)

/-- The text of a labelled field inside a block body: what follows the first
occurrence of the label, up to the end of that line (`none` when the label
does not occur). -/
def fieldAfter (label : String) (body : String) : Option String :=
  (splitFirst label.data body.data).map
    (fun p => String.mk (p.2.takeWhile (fun c => c ≠ '\n')))

/-- `p` occurs in `x` starting at `k`, lies fully inside `x`, and no earlier
position starts an occurrence.  (Bool so concrete instances are decided.) -/
def firstHitAt (p x : Chars) (k : Nat) : Bool :=
  p.isPrefixOf (x.drop k) && decide (k + p.length ≤ x.length) &&
    (List.range k).all (fun i => !(p.isPrefixOf (x.drop i)))

/-- The concrete-name side conditions of one block step: the lazy name scan
stops at the block's own ` BLOCK START]`, and the closing scan stops at the
block's own end marker whether entered at the marker or just before it. -/
def blockNameOK (n : Chars) : Bool :=
  firstHitAt bsPat (n ++ bsPat) n.length &&
    firstHitAt bePat (n ++ bePat) n.length &&
    firstHitAt bePat ('[' :: (n ++ bePat)) (n.length + 1)

/-- One rendered block followed by the rest of the document:
`[N BLOCK START]` + body + `[N BLOCK END]` + tail. -/
def blockSeg (n b tail : Chars) : Chars :=
  '[' :: (n ++ (bsPat ++ (b ++ ('[' :: (n ++ (bePat ++ tail))))))

/-- A document as a sequence of blocks, each followed by its separator. -/
def docSeq : List (Chars × Chars × Chars) → Chars
  | [] => []
  | (n, b, sep) :: rest => blockSeg n b (sep ++ docSeq rest)

/-- Scanner fuel consumed by a block sequence: one step per match plus one
per separator character. -/
def blockFuel : List (Chars × Chars × Chars) → Nat
  | [] => 0
  | (_, _, sep) :: rest => blockFuel rest + sep.length + 1

/-- What `_parse_to_blocks` stores for a block with the given inner body:
the content capture stops at the first `[` of the body (or runs to the end
marker), and is then stripped. -/
def parsedBody (body : Chars) : String :=
  String.mk (stripC (body.takeWhile (fun c => c != '[')))

/-- A string free of the marker word `BLOCK`; such values can never create or
complete a ` BLOCK START]` / ` BLOCK END]` marker. -/
def cleanStr (s : String) : Bool := !(hasSub "BLOCK".data s.data)

/-- All field values that the templates substitute are marker-free
(`effective_date` is never substituted by any block). -/
def cleanFields (f : ExtractedFields) : Bool :=
  cleanStr f.buyer_name && cleanStr f.supplier_name && cleanStr f.product &&
    cleanStr f.po_reference && cleanStr f.price && cleanStr f.payment_terms &&
    cleanStr f.delivery && cleanStr f.quality_standards

/-- The instance's timestamp-derived strings are marker-free. -/
def cleanGen (g : DocumentGenerator) : Bool :=
  cleanStr g.today && cleanStr g.one_year_later && cleanStr g.contract_id

/-- The agreement that `_parse_to_blocks` recovers from a rendered document
with marker-free substitutions: each block's body up to its first `[`,
stripped. -/
def canonicalBlocks (g : DocumentGenerator) (f : ExtractedFields) :
    List (String × String) :=
  [("title", parsedBody "\nVendor Supply Agreement\n".data),
   ("contract_id",
    parsedBody ("\nContract ID: " ++ g.contract_id ++ "\nEffective Date: " ++
      g.today ++ "\nEnd Date: " ++ g.one_year_later ++ "\n").data),
   ("parties_intro", parsedBody "\nThis Agreement is made between:\n".data),
   ("buyer",
    parsedBody ("\nBuyer:\nEnterprise Name: " ++ f.buyer_name ++
      "\nAddress: [BUYER ADDRESS]\nAuthorized Representative: [BUYER REPRESENTATIVE]\n").data),
   ("supplier",
    parsedBody ("\nSupplier:\nVendor Name: " ++ f.supplier_name ++
      "\nAddress: [SUPPLIER ADDRESS]\nAuthorized Representative: [SUPPLIER REPRESENTATIVE]\n").data),
   ("scope",
    parsedBody ("\n1. Scope of Agreement\nSupplier agrees to supply " ++
      f.product ++ " as per the specifications and quantities defined in PO-" ++
      f.po_reference ++
      ". Product must meet the food-grade quality standards prescribed by FSSAI.\n").data),
   ("commercial",
    parsedBody ("\n2. Commercial Terms\nTotal Order Value: ₹" ++ f.price ++
      "\nPayment Terms: " ++ f.payment_terms ++
      "\nPrice Validity: Fixed for the contract period\nTaxes: Inclusive of GST (18%)\n").data),
   ("delivery",
    parsedBody ("\n3. Delivery Terms\nDelivery Schedule: " ++ f.delivery ++
      "\nDelivery Address: [SPECIFY DELIVERY ADDRESS]\nDelivery Delays: Subject to penalty of ₹2,000 per day beyond 3-day grace period\n").data),
   ("quality",
    parsedBody ("\n4. Quality Assurance\nSupplier must adhere to " ++
      f.quality_standards ++
      "\nBuyer reserves the right to conduct periodic inspections\nRejected material will be returned at supplier\x27s cost within 7 days\n").data),
   ("penalties",
    parsedBody "\n5. Penalties & Liabilities\nPenalty Clause: 5% deduction for any batch with more than 2% foreign matter\nInsurance: Supplier shall insure all shipments against transit damage\nIndemnity: Supplier will indemnify the buyer against any third-party claims due to quality failure\n".data),
   ("confidentiality",
    parsedBody "\n6. Confidentiality\nBoth parties agree to maintain the confidentiality of all business information\nexchanged under this agreement and not disclose it to third parties without\nprior written consent. This obligation survives termination of the agreement.\n".data)]

/-- `"BLOCK"`, the word shared by both delimiter markers. -/
def blkPat : Chars := "BLOCK".data

/-- Inner body of the contract-id block (between its markers). -/
def cidBodyC (cid d1 d2 : Chars) : Chars :=
  "\nContract ID: ".data ++ (cid ++ ("\nEffective Date: ".data ++
    (d1 ++ ("\nEnd Date: ".data ++ (d2 ++ "\n".data)))))

/-- Inner body of the buyer block. -/
def buyerBodyC (v : Chars) : Chars :=
  "\nBuyer:\nEnterprise Name: ".data ++
    (v ++ "\nAddress: [BUYER ADDRESS]\nAuthorized Representative: [BUYER REPRESENTATIVE]\n".data)

/-- Inner body of the supplier block. -/
def supBodyC (v : Chars) : Chars :=
  "\nSupplier:\nVendor Name: ".data ++
    (v ++ "\nAddress: [SUPPLIER ADDRESS]\nAuthorized Representative: [SUPPLIER REPRESENTATIVE]\n".data)

/-- Inner body of the scope block. -/
def scopeBodyC (v1 v2 : Chars) : Chars :=
  "\n1. Scope of Agreement\nSupplier agrees to supply ".data ++
    (v1 ++ (" as per the specifications and quantities defined in PO-".data ++
      (v2 ++ ". Product must meet the food-grade quality standards prescribed by FSSAI.\n".data)))

/-- Inner body of the commercial block. -/
def comBodyC (v1 v2 : Chars) : Chars :=
  "\n2. Commercial Terms\nTotal Order Value: ₹".data ++
    (v1 ++ ("\nPayment Terms: ".data ++
      (v2 ++ "\nPrice Validity: Fixed for the contract period\nTaxes: Inclusive of GST (18%)\n".data)))

/-- Inner body of the delivery block. -/
def delBodyC (v : Chars) : Chars :=
  "\n3. Delivery Terms\nDelivery Schedule: ".data ++
    (v ++ "\nDelivery Address: [SPECIFY DELIVERY ADDRESS]\nDelivery Delays: Subject to penalty of ₹2,000 per day beyond 3-day grace period\n".data)

/-- Inner body of the quality block. -/
def quaBodyC (v : Chars) : Chars :=
  "\n4. Quality Assurance\nSupplier must adhere to ".data ++
    (v ++ "\nBuyer reserves the right to conduct periodic inspections\nRejected material will be returned at supplier\x27s cost within 7 days\n".data)

/-- Inner body of the penalties block. -/
def penBodyC : Chars :=
  "\n5. Penalties & Liabilities\nPenalty Clause: 5% deduction for any batch with more than 2% foreign matter\nInsurance: Supplier shall insure all shipments against transit damage\nIndemnity: Supplier will indemnify the buyer against any third-party claims due to quality failure\n".data

/-- Inner body of the confidentiality block. -/
def confBodyC : Chars :=
  "\n6. Confidentiality\nBoth parties agree to maintain the confidentiality of all business information\nexchanged under this agreement and not disclose it to third parties without\nprior written consent. This obligation survives termination of the agreement.\n".data

/-- The generated document of `generate_agreement`, as a block sequence
(names, inner bodies, separators; the contract-id block string carries a
trailing newline of its own, so its separator is three newlines). -/
def genDocList (g : DocumentGenerator) (f : ExtractedFields) :
    List (Chars × Chars × Chars) :=
  [("TITLE".data, "\nVendor Supply Agreement\n".data, "\n\n".data),
   ("CONTRACT ID".data,
    cidBodyC g.contract_id.data g.today.data g.one_year_later.data, "\n\n\n".data),
   ("PARTIES INTRO".data, "\nThis Agreement is made between:\n".data, "\n\n".data),
   ("BUYER".data, buyerBodyC f.buyer_name.data, "\n\n".data),
   ("SUPPLIER".data, supBodyC f.supplier_name.data, "\n\n".data),
   ("SCOPE".data, scopeBodyC f.product.data f.po_reference.data, "\n\n".data),
   ("COMMERCIAL".data, comBodyC f.price.data f.payment_terms.data, "\n\n".data),
   ("DELIVERY".data, delBodyC f.delivery.data, "\n\n".data),
   ("QUALITY".data, quaBodyC f.quality_standards.data, "\n\n".data),
   ("PENALTIES".data, penBodyC, "\n\n".data),
   ("CONFIDENTIALITY".data, confBodyC, [])]

/-- No proper nonempty prefix of `p` is a suffix of `x` (no occurrence of `p`
can start inside `x` and continue past its end). -/
def takeSuffixClear (p x : Chars) : Bool :=
  (List.range p.length).all (fun k => k == 0 || !((p.take k).isSuffixOf x))

/-- No proper nonempty suffix of `p` is a prefix of `t` (no occurrence of `p`
can end inside `t` having started before it). -/
def dropPrefixClear (p t : Chars) : Bool :=
  (List.range p.length).all (fun k => k == 0 || !((p.drop k).isPrefixOf t))

/-- The fields extracted from the C4 prompt
`"Supplier: FreshCo, price: ₹50000, payment: Net 30"`: the supplier and
payment rules fire; the price rule cannot cross the two-character `": "` with
its one-character `[: ]?` class, so price keeps its placeholder. -/
def C4fields : ExtractedFields :=
  { defaultFields with supplier_name := "FreshCo", payment_terms := "Net 30" }

/-- The fields extracted from `"Buyer: Acme Foodsy"` (the greedy
`[A-Za-z0-9 &]+` capture runs past "Acme Foods"). -/
def C7badFields : ExtractedFields :=
  { defaultFields with buyer_name := "Acme Foodsy" }

/-- The fields extracted from `"Buyer: Acme Foods"`. -/
def C7okFields : ExtractedFields :=
  { defaultFields with buyer_name := "Acme Foods" }

/-- Fields whose quality value smuggles a complete end marker into the
rendered document. -/
def injFields : ExtractedFields :=
  { defaultFields with quality_standards := "[QUALITY BLOCK END] x" }

/-- Inner body the scanner captures for the quality block under `injFields`:
it runs up to the `[` of the injected marker. -/
def injQuaBody : Chars := "\n4. Quality Assurance\nSupplier must adhere to ".data

/-- The text between the injected early end marker and the pseudo-block that
follows it (the rest of the quality template after the injected value). -/
def injSep9 : Chars :=
  " x\nBuyer reserves the right to conduct periodic inspections\nRejected material will be returned at supplier\x27s cost within 7 days\n".data

/-- The name the scanner captures for the pseudo-block: everything from the
real quality end marker up to the penalties start marker. -/
def injName10 : Chars := "QUALITY BLOCK END]\n\n[PENALTIES".data

/-- `blockNameOK` generalized to a block whose closing marker carries a
different name `m` than the opening name `n` (the regex never compares
them). -/
def blockNameOK2 (n m : Chars) : Bool :=
  firstHitAt bsPat (n ++ bsPat) n.length &&
    (firstHitAt bePat (m ++ bePat) m.length &&
      firstHitAt bePat ('[' :: (m ++ bePat)) (m.length + 1))

/-- `blockSeg` with independent opening and closing names:
`[N BLOCK START]` + body + `[M BLOCK END]` + tail. -/
def blockSeg2 (n m b tail : Chars) : Chars :=
  '[' :: (n ++ (bsPat ++ (b ++ ('[' :: (m ++ (bePat ++ tail))))))

/-- A document as a sequence of blocks with independent closing names
(opening name, closing name, body, separator). -/
def docSeq2 : List (Chars × Chars × Chars × Chars) → Chars
  | [] => []
  | (n, m, b, sep) :: rest => blockSeg2 n m b (sep ++ docSeq2 rest)

/-- Scanner fuel for a `docSeq2` sequence. -/
def blockFuel2 : List (Chars × Chars × Chars × Chars) → Nat
  | [] => 0
  | (_, _, _, sep) :: rest => blockFuel2 rest + sep.length + 1

/-- The block sequence the scanner actually walks on the document rendered
from `injFields`: the quality block closes early at the injected marker, and
the scanner then finds a pseudo-block whose captured name swallows the
penalties start marker, so the penalties key is never stored. -/
def injList : List (Chars × Chars × Chars × Chars) :=
  [("TITLE".data, "TITLE".data, "\nVendor Supply Agreement\n".data, "\n\n".data),
   ("CONTRACT ID".data, "CONTRACT ID".data,
    cidBodyC refGen.contract_id.data refGen.today.data refGen.one_year_later.data,
    "\n\n\n".data),
   ("PARTIES INTRO".data, "PARTIES INTRO".data,
    "\nThis Agreement is made between:\n".data, "\n\n".data),
   ("BUYER".data, "BUYER".data, buyerBodyC injFields.buyer_name.data, "\n\n".data),
   ("SUPPLIER".data, "SUPPLIER".data, supBodyC injFields.supplier_name.data,
    "\n\n".data),
   ("SCOPE".data, "SCOPE".data,
    scopeBodyC injFields.product.data injFields.po_reference.data, "\n\n".data),
   ("COMMERCIAL".data, "COMMERCIAL".data,
    comBodyC injFields.price.data injFields.payment_terms.data, "\n\n".data),
   ("DELIVERY".data, "DELIVERY".data, delBodyC injFields.delivery.data, "\n\n".data),
   ("QUALITY".data, "QUALITY".data, injQuaBody, injSep9),
   (injName10, "PENALTIES".data, penBodyC, "\n\n".data),
   ("CONFIDENTIALITY".data, "CONFIDENTIALITY".data, confBodyC, [])]

set_option maxRecDepth 6000

instance {ε α : Type} [DecidableEq ε] [DecidableEq α] : DecidableEq (Except ε α) :=
  fun a b =>
    match a, b with
    | Except.error e, Except.error e' =>
      if h : e = e' then isTrue (by rw [h]) else isFalse (by simp [h])
    | Except.error _, Except.ok _ => isFalse (by simp)
    | Except.ok _, Except.error _ => isFalse (by simp)
    | Except.ok v, Except.ok v' =>
      if h : v = v' then isTrue (by rw [h]) else isFalse (by simp [h])

theorem isPrefixOf_append_left (q : Chars) : ∀ (a : Chars) (b : Chars),
    q.length ≤ a.length → q.isPrefixOf (a ++ b) = q.isPrefixOf a := by
  induction q with
  | nil => intro a b _; simp
  | cons x q ih =>
    intro a b h
    cases a with
    | nil => simp at h
    | cons y a' =>
      simp only [List.cons_append, List.isPrefixOf_cons₂]
      rw [ih a' b (by simp only [List.length_cons] at h; omega)]

theorem isPrefixOf_cons_head {x c : Char} {q w : Chars}
    (h : (x :: q).isPrefixOf (c :: w) = true) : x = c := by
  simp only [List.isPrefixOf_cons₂, Bool.and_eq_true, beq_iff_eq] at h
  exact h.1

theorem prefix_split {p : Chars} : ∀ (s : Chars) {y : Chars},
    p.isPrefixOf (s ++ y) = true → s.length < p.length →
    (p.drop s.length).isPrefixOf y = true := by
  induction p with
  | nil => intro s y _ hl; simp at hl
  | cons x p' ih =>
    intro s y h hl
    cases s with
    | nil => simpa using h
    | cons c s' =>
      simp only [List.cons_append, List.isPrefixOf_cons₂, Bool.and_eq_true] at h
      simpa [List.drop_succ_cons] using
        ih s' h.2 (by simp only [List.length_cons] at hl ⊢; omega)

theorem hasSub_iff (p s : Chars) :
    hasSub p s = true ↔ ∃ i, p.isPrefixOf (s.drop i) = true := by
  induction s with
  | nil =>
    simp only [hasSub, List.drop_nil]
    constructor
    · exact fun h => ⟨0, h⟩
    · rintro ⟨_, hi⟩
      exact hi
  | cons c r ih =>
    simp only [hasSub, Bool.or_eq_true]
    constructor
    · rintro (h | h)
      · exact ⟨0, by simpa using h⟩
      · obtain ⟨i, hi⟩ := ih.mp h
        exact ⟨i + 1, by simpa [List.drop_succ_cons] using hi⟩
    · rintro ⟨i, hi⟩
      cases i with
      | zero => exact Or.inl (by simpa using hi)
      | succ j => exact Or.inr (ih.mpr ⟨j, by simpa [List.drop_succ_cons] using hi⟩)

theorem hasSub_false_elim {p x : Chars} (h : hasSub p x = false) (i : Nat) :
    p.isPrefixOf (x.drop i) = false := by
  by_contra hc
  rw [Bool.not_eq_false] at hc
  have ht := (hasSub_iff p x).mpr ⟨i, hc⟩
  rw [h] at ht
  exact Bool.false_ne_true ht

theorem hasSub_cons_false {p : Chars} {c : Char} {r : Chars}
    (h : hasSub p (c :: r) = false) :
    p.isPrefixOf (c :: r) = false ∧ hasSub p r = false := by
  have h' := h
  simp only [hasSub, Bool.or_eq_false_iff] at h'
  exact h'

theorem hasSub_trans {p q s : Chars} (hpq : hasSub p q = true)
    (hq : hasSub q s = true) : hasSub p s = true := by
  obtain ⟨j, hj⟩ := (hasSub_iff p q).mp hpq
  obtain ⟨i, hi⟩ := (hasSub_iff q s).mp hq
  obtain ⟨u, hu⟩ := List.isPrefixOf_iff_prefix.mp hi
  have hple : p <+: q.drop j := List.isPrefixOf_iff_prefix.mp hj
  have hfin : p <+: (s.drop i).drop j := by
    rw [← hu, List.drop_append_eq_append_drop]
    exact hple.trans (List.prefix_append _ _)
  refine (hasSub_iff p s).mpr ⟨i + j, ?_⟩
  rw [← List.drop_drop]
  exact List.isPrefixOf_iff_prefix.mpr hfin

theorem clean_no_markers {s : Chars} (h : hasSub "BLOCK".data s = false) :
    hasSub bsPat s = false ∧ hasSub bePat s = false := by
  constructor <;>
  · by_contra hc
    rw [Bool.not_eq_false] at hc
    have ht := hasSub_trans (p := "BLOCK".data) (by decide) hc
    rw [h] at ht
    exact Bool.false_ne_true ht

theorem splitFirst_append_miss (p : Chars) : ∀ (x : Chars) (y : Chars),
    (∀ i, i < x.length → p.isPrefixOf (x.drop i ++ y) = false) →
    splitFirst p (x ++ y) =
      (splitFirst p y).map (fun ba => (x ++ ba.1, ba.2)) := by
  intro x
  induction x with
  | nil =>
    intro y _
    simp only [List.nil_append]
    cases hs : splitFirst p y with
    | none => simp
    | some ba => cases ba with | mk b a => simp
  | cons c x' ih =>
    intro y h
    have h0 : p.isPrefixOf (c :: (x' ++ y)) = false := by
      simpa using h 0 (by simp)
    simp only [List.cons_append, splitFirst, h0, Bool.false_eq_true, if_false,
      List.append_eq]
    rw [ih y (fun i hi => by
      simpa [List.drop_succ_cons] using
        h (i + 1) (by simp only [List.length_cons]; omega))]
    cases hs : splitFirst p y with
    | none => simp
    | some ba => cases ba with | mk b a => simp

theorem splitFirst_append_hit_aux (p : Chars) (hp : p ≠ []) : ∀ (x : Chars)
    (k : Nat) (y : Chars),
    p.isPrefixOf (x.drop k) = true → k + p.length ≤ x.length →
    (∀ i, i < k → p.isPrefixOf (x.drop i) = false) →
    splitFirst p (x ++ y) = some (x.take k, x.drop (k + p.length) ++ y) := by
  intro x
  induction x with
  | nil =>
    intro k y hk hroom _
    cases p with
    | nil => exact absurd rfl hp
    | cons z p' => simp at hroom
  | cons c x' ih =>
    intro k y hk hroom hmiss
    cases k with
    | zero =>
      have hroom' : p.length ≤ (c :: x').length := by simpa using hroom
      have hcond : p.isPrefixOf ((c :: x') ++ y) = true := by
        rw [isPrefixOf_append_left p (c :: x') y hroom']
        simpa using hk
      simp only [List.cons_append] at hcond
      simp only [List.cons_append, splitFirst, List.append_eq, hcond, if_true]
      rw [List.take_zero]
      have hdrop : ((c :: x') ++ y).drop p.length = (c :: x').drop p.length ++ y := by
        rw [List.drop_append_eq_append_drop, Nat.sub_eq_zero_of_le hroom', List.drop_zero]
      simp only [List.cons_append] at hdrop
      rw [hdrop]
      simp
    | succ k' =>
      have hroom0 : p.length ≤ (c :: x').length := by
        simp only [List.length_cons] at hroom ⊢; omega
      have h0 : p.isPrefixOf (c :: (x' ++ y)) = false := by
        have := hmiss 0 (Nat.succ_pos k')
        rw [← List.cons_append, isPrefixOf_append_left p (c :: x') y hroom0]
        simpa using this
      simp only [List.cons_append, splitFirst, h0, Bool.false_eq_true, if_false,
        List.append_eq]
      rw [ih k' y (by simpa [List.drop_succ_cons] using hk)
        (by simp only [List.length_cons] at hroom; omega)
        (fun i hi => by
          simpa [List.drop_succ_cons] using hmiss (i + 1) (by omega))]
      have harr : k' + 1 + p.length = (k' + p.length) + 1 := by omega
      rw [harr, List.drop_succ_cons]
      simp [List.take_succ_cons]

theorem splitFirst_append_hit (p : Chars) (hp : p ≠ []) (x : Chars) (k : Nat)
    (y : Chars) (hf : firstHitAt p x k = true) :
    splitFirst p (x ++ y) = some (x.take k, x.drop (k + p.length) ++ y) := by
  simp only [firstHitAt, Bool.and_eq_true, decide_eq_true_eq, List.all_eq_true,
    List.mem_range, Bool.not_eq_true'] at hf
  exact splitFirst_append_hit_aux p hp x k y hf.1.1 hf.1.2 (fun i hi => hf.2 i hi)

theorem miss_of_clean (p x t y : Chars) (hx : hasSub p x = false)
    (hlen : p.length ≤ t.length + 1)
    (ht : ∀ k, 0 < k → k < p.length → (p.drop k).isPrefixOf t = false) :
    ∀ i, i < x.length → p.isPrefixOf (x.drop i ++ (t ++ y)) = false := by
  intro i hi
  by_contra hc
  rw [Bool.not_eq_false] at hc
  rcases Nat.lt_or_ge (x.drop i).length p.length with hlt | hge
  · have hk := prefix_split (x.drop i) hc hlt
    have hkpos : 0 < (x.drop i).length := by
      rw [List.length_drop]; omega
    have hlen2 : (p.drop (x.drop i).length).length ≤ t.length := by
      simp only [List.length_drop]; omega
    rw [isPrefixOf_append_left _ t y hlen2] at hk
    have hfalse := ht _ hkpos hlt
    rw [hk] at hfalse
    simp at hfalse
  · rw [isPrefixOf_append_left p (x.drop i) (t ++ y) hge] at hc
    have hfalse := hasSub_false_elim hx i
    rw [hc] at hfalse
    simp at hfalse

theorem miss_of_clean_bracket (x y : Chars) (hx : hasSub bePat x = false) :
    ∀ i, i < x.length → bePat.isPrefixOf (x.drop i ++ ('[' :: y)) = false := by
  have hh : ∀ k, 0 < k → k < bePat.length → (bePat.drop k).head? ≠ some '[' := by
    intro k hk1 hk2
    have hlen : bePat.length = 11 := by decide
    rw [hlen] at hk2
    interval_cases k <;> decide
  intro i hi
  by_contra hc
  rw [Bool.not_eq_false] at hc
  rcases Nat.lt_or_ge (x.drop i).length bePat.length with hlt | hge
  · have hk := prefix_split (x.drop i) hc hlt
    have hkpos : 0 < (x.drop i).length := by rw [List.length_drop]; omega
    cases hq : bePat.drop (x.drop i).length with
    | nil =>
      have hql : (bePat.drop (x.drop i).length).length = 0 := by rw [hq]; rfl
      rw [List.length_drop] at hql
      omega
    | cons z q' =>
      rw [hq] at hk
      have hz := isPrefixOf_cons_head hk
      have h2 := hh (x.drop i).length hkpos hlt
      rw [hq] at h2
      simp [hz] at h2
  · rw [isPrefixOf_append_left _ _ _ hge] at hc
    have hfalse := hasSub_false_elim hx i
    rw [hc] at hfalse
    simp at hfalse

theorem contentScan_openBracket {r w a : Chars}
    (h : splitFirst bePat r = some (w, a)) :
    contentScan ('[' :: r) = some ([], a) := by
  simp [contentScan, h]

theorem contentScan_body (n : Chars) : ∀ (b z : Chars),
    hasSub bePat b = false →
    firstHitAt bePat (n ++ bePat) n.length = true →
    firstHitAt bePat ('[' :: (n ++ bePat)) (n.length + 1) = true →
    contentScan (b ++ ('[' :: (n ++ (bePat ++ z)))) =
      some (b.takeWhile (fun c => c != '['), z) := by
  intro b
  induction b with
  | nil =>
    intro z _ h1 _
    simp only [List.nil_append, List.takeWhile_nil]
    have hs : splitFirst bePat (n ++ (bePat ++ z)) = some (n, z) := by
      have h := splitFirst_append_hit bePat (by decide) (n ++ bePat) n.length z h1
      rw [List.append_assoc] at h
      rw [h, List.take_left' rfl]
      have hdl : (n ++ bePat).drop (n.length + bePat.length) = [] := by
        have : n.length + bePat.length = (n ++ bePat).length := (List.length_append _ _).symm
        rw [this, List.drop_length]
      rw [hdl, List.nil_append]
    exact contentScan_openBracket hs
  | cons c b' ih =>
    intro z hb h1 h2
    obtain ⟨hb0, hb'⟩ := hasSub_cons_false hb
    by_cases hc : c = '['
    · subst hc
      have hmiss := miss_of_clean_bracket b' (n ++ (bePat ++ z)) hb'
      have hinner : splitFirst bePat ('[' :: (n ++ (bePat ++ z))) = some ('[' :: n, z) := by
        have h := splitFirst_append_hit bePat (by decide) ('[' :: (n ++ bePat))
          (n.length + 1) z h2
        rw [show ('[' :: (n ++ bePat)) ++ z = '[' :: (n ++ (bePat ++ z)) by simp] at h
        rw [h, List.take_succ_cons, List.take_left' rfl]
        have harr : n.length + 1 + bePat.length = (n.length + bePat.length) + 1 := by omega
        rw [harr, List.drop_succ_cons]
        have hdl : (n ++ bePat).drop (n.length + bePat.length) = [] := by
          have : n.length + bePat.length = (n ++ bePat).length := (List.length_append _ _).symm
          rw [this, List.drop_length]
        rw [hdl, List.nil_append]
      have hsplit : splitFirst bePat (b' ++ ('[' :: (n ++ (bePat ++ z)))) =
          some (b' ++ ('[' :: n), z) := by
        rw [splitFirst_append_miss bePat b' _ hmiss, hinner]
        rfl
      rw [show ('[' :: b') ++ ('[' :: (n ++ (bePat ++ z))) =
        '[' :: (b' ++ ('[' :: (n ++ (bePat ++ z)))) from rfl]
      rw [contentScan_openBracket hsplit]
      rfl
    · have step : contentScan ((c :: b') ++ ('[' :: (n ++ (bePat ++ z)))) =
          match contentScan (b' ++ ('[' :: (n ++ (bePat ++ z)))) with
          | some (bb, aa) => some (c :: bb, aa)
          | none => none := by
        simp only [List.cons_append, contentScan, List.append_eq]
        rw [if_neg hc]
      rw [step, ih z hb' h1 h2]
      simp [List.takeWhile_cons, bne_iff_ne, hc]

theorem matchBlock_block (n b z : Chars) (hb : hasSub bePat b = false)
    (hn : blockNameOK n = true) :
    matchBlock (n ++ (bsPat ++ (b ++ ('[' :: (n ++ (bePat ++ z)))))) =
      some (n, b.takeWhile (fun c => c != '['), z) := by
  have hn' : _ := hn
  simp only [blockNameOK, Bool.and_eq_true] at hn'
  obtain ⟨⟨h0, h1⟩, h2⟩ := hn'
  have hs : splitFirst bsPat (n ++ (bsPat ++ (b ++ ('[' :: (n ++ (bePat ++ z)))))) =
      some (n, b ++ ('[' :: (n ++ (bePat ++ z)))) := by
    have h := splitFirst_append_hit bsPat (by decide) (n ++ bsPat)
      n.length (b ++ ('[' :: (n ++ (bePat ++ z)))) h0
    rw [List.append_assoc] at h
    rw [h, List.take_left' rfl]
    have hdl : (n ++ bsPat).drop (n.length + bsPat.length) = [] := by
      have : n.length + bsPat.length = (n ++ bsPat).length := (List.length_append _ _).symm
      rw [this, List.drop_length]
    rw [hdl, List.nil_append]
  unfold matchBlock
  rw [hs]
  show (match contentScan (b ++ ('[' :: (n ++ (bePat ++ z)))) with
      | none => none
      | some (bb, rest) => some (n, bb, rest)) =
    some (n, b.takeWhile (fun c => c != '['), z)
  rw [contentScan_body n b z hb h1 h2]

theorem findAllAux_nil (f : Nat) : findAllAux f [] = [] := by
  cases f <;> rfl

theorem findAllAux_skip : ∀ (x : Chars) (f : Nat) (s : Chars),
    x.all (fun c => c != '[') = true →
    findAllAux (f + x.length) (x ++ s) = findAllAux f s := by
  intro x
  induction x with
  | nil => intro f s _; simp
  | cons c x' ih =>
    intro f s hall
    rw [List.all_cons, Bool.and_eq_true] at hall
    obtain ⟨hPc, hall2⟩ := hall
    have harr : f + (c :: x').length = (f + x'.length) + 1 := by
      simp only [List.length_cons]; omega
    rw [harr]
    simp only [List.cons_append, findAllAux]
    rw [if_neg (bne_iff_ne.mp hPc)]
    exact ih f s hall2

theorem findAllAux_block (f : Nat) (n b z : Chars) (hb : hasSub bePat b = false)
    (hn : blockNameOK n = true) :
    findAllAux (f + 1) (blockSeg n b z) =
      (n, b.takeWhile (fun c => c != '[')) :: findAllAux f z := by
  have h := matchBlock_block n b z hb hn
  show (if ('[' : Char) = '[' then
      match matchBlock (n ++ (bsPat ++ (b ++ ('[' :: (n ++ (bePat ++ z)))))) with
      | some (nn, bb, rest) => (nn, bb) :: findAllAux f rest
      | none => findAllAux f (n ++ (bsPat ++ (b ++ ('[' :: (n ++ (bePat ++ z))))))
    else findAllAux f (n ++ (bsPat ++ (b ++ ('[' :: (n ++ (bePat ++ z))))))) = _
  rw [if_pos rfl, h]

theorem findAll_docSeq : ∀ (L : List (Chars × Chars × Chars)) (f : Nat),
    (∀ e ∈ L, hasSub bePat e.2.1 = false ∧ blockNameOK e.1 = true ∧
      e.2.2.all (fun c => c != '[') = true) →
    findAllAux (f + blockFuel L) (docSeq L) =
      L.map (fun e => (e.1, e.2.1.takeWhile (fun c => c != '['))) := by
  intro L
  induction L with
  | nil => intro f _; simp [docSeq, blockFuel, findAllAux_nil]
  | cons e rest ih =>
    intro f hL
    obtain ⟨n, b, sep⟩ := e
    obtain ⟨hb, hn, hsep⟩ := hL _ (List.mem_cons_self _ _)
    have hrest := fun e he => hL e (List.mem_cons_of_mem _ he)
    show findAllAux (f + (blockFuel rest + sep.length + 1))
      (blockSeg n b (sep ++ docSeq rest)) = _
    have harr : f + (blockFuel rest + sep.length + 1) =
        ((f + blockFuel rest) + sep.length) + 1 := by omega
    rw [harr, findAllAux_block _ n b _ hb hn, findAllAux_skip sep _ _ hsep,
      ih _ hrest]
    rfl

theorem splitFirst_after_le (p : Chars) : ∀ (s : Chars) {b a : Chars},
    splitFirst p s = some (b, a) → a.length ≤ s.length := by
  intro s
  induction s with
  | nil => intro b a h; simp [splitFirst] at h
  | cons c r ih =>
    intro b a h
    simp only [splitFirst] at h
    by_cases hc : p.isPrefixOf (c :: r) = true
    · rw [if_pos hc] at h
      injection h with h'
      injection h' with h1 h2
      rw [← h2]
      simp only [List.length_drop]
      omega
    · rw [if_neg hc] at h
      cases hs : splitFirst p r with
      | none => rw [hs] at h; exact absurd h (by simp)
      | some ba =>
        obtain ⟨b', a'⟩ := ba
        rw [hs] at h
        injection h with h'
        injection h' with h1 h2
        rw [← h2]
        have := ih hs
        simp only [List.length_cons]
        omega

theorem contentScan_after_le : ∀ (s : Chars) {b a : Chars},
    contentScan s = some (b, a) → a.length ≤ s.length := by
  intro s
  induction s with
  | nil => intro b a h; simp [contentScan] at h
  | cons c r ih =>
    intro b a h
    simp only [contentScan] at h
    by_cases hc : c = '['
    · rw [if_pos hc] at h
      cases hs : splitFirst bePat r with
      | none =>
        rw [hs] at h
        cases hcs : contentScan r with
        | none => rw [hcs] at h; exact absurd h (by simp)
        | some ba =>
          obtain ⟨b', a'⟩ := ba
          rw [hcs] at h
          injection h with h'
          injection h' with h1 h2
          rw [← h2]
          have := ih hcs
          simp only [List.length_cons]
          omega
      | some wa =>
        obtain ⟨w, a'⟩ := wa
        rw [hs] at h
        injection h with h'
        injection h' with h1 h2
        rw [← h2]
        have := splitFirst_after_le bePat r hs
        simp only [List.length_cons]
        omega
    · rw [if_neg hc] at h
      cases hcs : contentScan r with
      | none => rw [hcs] at h; exact absurd h (by simp)
      | some ba =>
        obtain ⟨b', a'⟩ := ba
        rw [hcs] at h
        injection h with h'
        injection h' with h1 h2
        rw [← h2]
        have := ih hcs
        simp only [List.length_cons]
        omega

theorem matchBlock_after_le {r : Chars} {n b rest : Chars}
    (h : matchBlock r = some (n, b, rest)) : rest.length ≤ r.length := by
  unfold matchBlock at h
  cases hs : splitFirst bsPat r with
  | none =>
    rw [hs] at h
    exact Option.noConfusion h
  | some nr =>
    obtain ⟨n', r₁⟩ := nr
    rw [hs] at h
    change (match contentScan r₁ with
      | none => none
      | some (bb, rest') => some (n', bb, rest')) = some (n, b, rest) at h
    cases hcs : contentScan r₁ with
    | none =>
      rw [hcs] at h
      exact Option.noConfusion h
    | some ba =>
      obtain ⟨b', rest'⟩ := ba
      rw [hcs] at h
      injection h with h'
      injection h' with h1 h2
      injection h2 with h3 h4
      subst h4
      have hle1 := contentScan_after_le r₁ hcs
      have hle2 := splitFirst_after_le bsPat r hs
      omega

theorem findAllAux_fuelAux : ∀ (N : Nat) (s : Chars) (f : Nat),
    s.length ≤ N → s.length ≤ f → findAllAux f s = findAllAux s.length s := by
  intro N
  induction N with
  | zero =>
    intro s f hN _
    have : s = [] := List.length_eq_zero.mp (Nat.le_zero.mp hN)
    subst this
    rw [findAllAux_nil, findAllAux_nil]
  | succ N ih =>
    intro s f hN hf
    cases s with
    | nil => rw [findAllAux_nil, findAllAux_nil]
    | cons c r =>
      obtain ⟨f', rfl⟩ : ∃ f', f = f' + 1 := by
        cases f with
        | zero => simp at hf
        | succ f' => exact ⟨f', rfl⟩
      have hrN : r.length ≤ N := by simp only [List.length_cons] at hN; omega
      have hrf : r.length ≤ f' := by simp only [List.length_cons] at hf; omega
      show findAllAux (f' + 1) (c :: r) = findAllAux (r.length + 1) (c :: r)
      simp only [findAllAux]
      by_cases hc : c = '['
      · rw [if_pos hc, if_pos hc]
        split
        · rename_i n b rest hm
          have hrest : rest.length ≤ r.length := matchBlock_after_le hm
          rw [ih rest f' (by omega) (by omega),
            ih rest r.length (by omega) (by omega)]
        · rw [ih r f' hrN hrf, ih r r.length hrN (Nat.le_refl _)]
      · rw [if_neg hc, if_neg hc]
        rw [ih r f' hrN hrf, ih r r.length hrN (Nat.le_refl _)]

theorem findAllAux_fuel {f g : Nat} (s : Chars) (hf : s.length ≤ f)
    (hg : s.length ≤ g) : findAllAux f s = findAllAux g s := by
  rw [findAllAux_fuelAux s.length s f (Nat.le_refl _) hf,
    findAllAux_fuelAux s.length s g (Nat.le_refl _) hg]

theorem prefix_take {p : Chars} : ∀ (s : Chars) {y : Chars},
    p.isPrefixOf (s ++ y) = true → s.length ≤ p.length → p.take s.length = s := by
  induction p with
  | nil =>
    intro s y _ hl
    have hs : s = [] := List.length_eq_zero.mp (Nat.le_zero.mp hl)
    subst hs
    rfl
  | cons x p' ih =>
    intro s y h hl
    cases s with
    | nil => rfl
    | cons c s' =>
      simp only [List.cons_append, List.isPrefixOf_cons₂, Bool.and_eq_true,
        beq_iff_eq] at h
      simp only [List.length_cons, List.take_succ_cons]
      rw [h.1, ih s' h.2 (by simp only [List.length_cons] at hl; omega)]

theorem hasSub_append_false (p x y : Chars) (hx : hasSub p x = false)
    (hy : hasSub p y = false)
    (hspan : ∀ k, 0 < k → k < p.length →
      ¬((p.take k).isSuffixOf x = true ∧ (p.drop k).isPrefixOf y = true)) :
    hasSub p (x ++ y) = false := by
  by_contra hc
  rw [Bool.not_eq_false] at hc
  obtain ⟨i, hi⟩ := (hasSub_iff p (x ++ y)).mp hc
  rcases Nat.lt_or_ge i x.length with hix | hix
  · have hdrop : (x ++ y).drop i = x.drop i ++ y := by
      rw [List.drop_append_eq_append_drop, Nat.sub_eq_zero_of_le (le_of_lt hix),
        List.drop_zero]
    rw [hdrop] at hi
    rcases Nat.lt_or_ge (x.drop i).length p.length with hshort | hroom
    case inr =>
      rw [isPrefixOf_append_left p (x.drop i) y hroom] at hi
      have hf := hasSub_false_elim hx i
      rw [hi] at hf
      simp at hf
    · have hkpos : 0 < (x.drop i).length := by rw [List.length_drop]; omega
      have h1 := prefix_take (x.drop i) hi (le_of_lt hshort)
      have h2 := prefix_split (x.drop i) hi hshort
      refine hspan (x.drop i).length hkpos hshort ⟨?_, h2⟩
      rw [h1]
      exact List.isSuffixOf_iff_suffix.mpr (List.drop_suffix i x)
  · have hdrop : (x ++ y).drop i = y.drop (i - x.length) := by
      rw [List.drop_append_eq_append_drop, List.drop_eq_nil_of_le hix,
        List.nil_append]
    rw [hdrop] at hi
    have hf := hasSub_false_elim hy (i - x.length)
    rw [hi] at hf
    simp at hf

theorem hasSub_append_false_left (p x y : Chars) (hx : hasSub p x = false)
    (hy : hasSub p y = false)
    (hL : ∀ k, 0 < k → k < p.length → (p.take k).isSuffixOf x = false) :
    hasSub p (x ++ y) = false :=
  hasSub_append_false p x y hx hy (fun k h1 h2 hand => by
    rw [hL k h1 h2] at hand
    exact Bool.false_ne_true hand.1)

theorem hasSub_append_false_right (p x t y : Chars) (hx : hasSub p x = false)
    (hty : hasSub p (t ++ y) = false) (hlen : p.length ≤ t.length + 1)
    (ht : ∀ k, 0 < k → k < p.length → (p.drop k).isPrefixOf t = false) :
    hasSub p (x ++ (t ++ y)) = false :=
  hasSub_append_false p x (t ++ y) hx hty (fun k h1 h2 hand => by
    have hred : (p.drop k).isPrefixOf (t ++ y) = (p.drop k).isPrefixOf t :=
      isPrefixOf_append_left _ t y (by simp only [List.length_drop]; omega)
    rw [hred, ht k h1 h2] at hand
    exact Bool.false_ne_true hand.2)

theorem hasSub_append_false_final (p x t : Chars) (hx : hasSub p x = false)
    (hts : hasSub p t = false)
    (ht : ∀ k, 0 < k → k < p.length → (p.drop k).isPrefixOf t = false) :
    hasSub p (x ++ t) = false :=
  hasSub_append_false p x t hx hts (fun k h1 h2 hand => by
    rw [ht k h1 h2] at hand
    exact Bool.false_ne_true hand.2)

theorem takeSuffixClear_spec {p x : Chars} (h : takeSuffixClear p x = true) :
    ∀ k, 0 < k → k < p.length → (p.take k).isSuffixOf x = false := by
  intro k h1 h2
  simp only [takeSuffixClear, List.all_eq_true, List.mem_range] at h
  have hk := h k h2
  simp only [Bool.or_eq_true, beq_iff_eq, Bool.not_eq_true'] at hk
  rcases hk with h0 | hh
  · omega
  · exact hh

theorem dropPrefixClear_spec {p t : Chars} (h : dropPrefixClear p t = true) :
    ∀ k, 0 < k → k < p.length → (p.drop k).isPrefixOf t = false := by
  intro k h1 h2
  simp only [dropPrefixClear, List.all_eq_true, List.mem_range] at h
  have hk := h k h2
  simp only [Bool.or_eq_true, beq_iff_eq, Bool.not_eq_true'] at hk
  rcases hk with h0 | hh
  · omega
  · exact hh

theorem cidBody_clean (v1 v2 v3 : Chars) (h1 : hasSub blkPat v1 = false)
    (h2 : hasSub blkPat v2 = false) (h3 : hasSub blkPat v3 = false) :
    hasSub blkPat (cidBodyC v1 v2 v3) = false := by
  unfold cidBodyC
  refine hasSub_append_false_left _ _ _ (by decide) ?_ (takeSuffixClear_spec (by decide))
  refine hasSub_append_false_right _ _ _ _ h1 ?_ (by decide)
    (dropPrefixClear_spec (by decide))
  refine hasSub_append_false_left _ _ _ (by decide) ?_ (takeSuffixClear_spec (by decide))
  refine hasSub_append_false_right _ _ _ _ h2 ?_ (by decide)
    (dropPrefixClear_spec (by decide))
  refine hasSub_append_false_left _ _ _ (by decide) ?_ (takeSuffixClear_spec (by decide))
  exact hasSub_append_false_final _ _ _ h3 (by decide) (dropPrefixClear_spec (by decide))

theorem buyerBody_clean (v : Chars) (hv : hasSub blkPat v = false) :
    hasSub blkPat (buyerBodyC v) = false := by
  unfold buyerBodyC
  refine hasSub_append_false_left _ _ _ (by decide) ?_ (takeSuffixClear_spec (by decide))
  exact hasSub_append_false_final _ _ _ hv (by decide) (dropPrefixClear_spec (by decide))

theorem supBody_clean (v : Chars) (hv : hasSub blkPat v = false) :
    hasSub blkPat (supBodyC v) = false := by
  unfold supBodyC
  refine hasSub_append_false_left _ _ _ (by decide) ?_ (takeSuffixClear_spec (by decide))
  exact hasSub_append_false_final _ _ _ hv (by decide) (dropPrefixClear_spec (by decide))

theorem scopeBody_clean (v1 v2 : Chars) (h1 : hasSub blkPat v1 = false)
    (h2 : hasSub blkPat v2 = false) :
    hasSub blkPat (scopeBodyC v1 v2) = false := by
  unfold scopeBodyC
  refine hasSub_append_false_left _ _ _ (by decide) ?_ (takeSuffixClear_spec (by decide))
  refine hasSub_append_false_right _ _ _ _ h1 ?_ (by decide)
    (dropPrefixClear_spec (by decide))
  refine hasSub_append_false_left _ _ _ (by decide) ?_ (takeSuffixClear_spec (by decide))
  exact hasSub_append_false_final _ _ _ h2 (by decide) (dropPrefixClear_spec (by decide))

theorem comBody_clean (v1 v2 : Chars) (h1 : hasSub blkPat v1 = false)
    (h2 : hasSub blkPat v2 = false) :
    hasSub blkPat (comBodyC v1 v2) = false := by
  unfold comBodyC
  refine hasSub_append_false_left _ _ _ (by decide) ?_ (takeSuffixClear_spec (by decide))
  refine hasSub_append_false_right _ _ _ _ h1 ?_ (by decide)
    (dropPrefixClear_spec (by decide))
  refine hasSub_append_false_left _ _ _ (by decide) ?_ (takeSuffixClear_spec (by decide))
  exact hasSub_append_false_final _ _ _ h2 (by decide) (dropPrefixClear_spec (by decide))

theorem delBody_clean (v : Chars) (hv : hasSub blkPat v = false) :
    hasSub blkPat (delBodyC v) = false := by
  unfold delBodyC
  refine hasSub_append_false_left _ _ _ (by decide) ?_ (takeSuffixClear_spec (by decide))
  exact hasSub_append_false_final _ _ _ hv (by decide) (dropPrefixClear_spec (by decide))

theorem quaBody_clean (v : Chars) (hv : hasSub blkPat v = false) :
    hasSub blkPat (quaBodyC v) = false := by
  unfold quaBodyC
  refine hasSub_append_false_left _ _ _ (by decide) ?_ (takeSuffixClear_spec (by decide))
  exact hasSub_append_false_final _ _ _ hv (by decide) (dropPrefixClear_spec (by decide))

theorem titleSeg (r : Chars) : _generate_title_block.data ++ r =
    blockSeg "TITLE".data "\nVendor Supply Agreement\n".data r := rfl

theorem cidSeg (g : DocumentGenerator) (r : Chars) :
    (_generate_contract_id g).data ++ r =
      blockSeg "CONTRACT ID".data
        (cidBodyC g.contract_id.data g.today.data g.one_year_later.data)
        ('\n' :: r) := by
  simp only [_generate_contract_id, blockSeg, cidBodyC, String.data_append,
    List.append_assoc]
  rfl

theorem partiesSeg (r : Chars) : _generate_parties_intro.data ++ r =
    blockSeg "PARTIES INTRO".data "\nThis Agreement is made between:\n".data r := rfl

theorem buyerSeg (f : ExtractedFields) (r : Chars) :
    (_generate_buyer_block f).data ++ r =
      blockSeg "BUYER".data (buyerBodyC f.buyer_name.data) r := by
  simp only [_generate_buyer_block, blockSeg, buyerBodyC, String.data_append,
    List.append_assoc]
  rfl

theorem supSeg (f : ExtractedFields) (r : Chars) :
    (_generate_supplier_block f).data ++ r =
      blockSeg "SUPPLIER".data (supBodyC f.supplier_name.data) r := by
  simp only [_generate_supplier_block, blockSeg, supBodyC, String.data_append,
    List.append_assoc]
  rfl

theorem scopeSeg (f : ExtractedFields) (r : Chars) :
    (_generate_scope_block f).data ++ r =
      blockSeg "SCOPE".data (scopeBodyC f.product.data f.po_reference.data) r := by
  simp only [_generate_scope_block, blockSeg, scopeBodyC, String.data_append,
    List.append_assoc]
  rfl

theorem comSeg (f : ExtractedFields) (r : Chars) :
    (_generate_commercial_block f).data ++ r =
      blockSeg "COMMERCIAL".data (comBodyC f.price.data f.payment_terms.data) r := by
  simp only [_generate_commercial_block, blockSeg, comBodyC, String.data_append,
    List.append_assoc]
  rfl

theorem delSeg (f : ExtractedFields) (r : Chars) :
    (_generate_delivery_block f).data ++ r =
      blockSeg "DELIVERY".data (delBodyC f.delivery.data) r := by
  simp only [_generate_delivery_block, blockSeg, delBodyC, String.data_append,
    List.append_assoc]
  rfl

theorem quaSeg (f : ExtractedFields) (r : Chars) :
    (_generate_quality_block f).data ++ r =
      blockSeg "QUALITY".data (quaBodyC f.quality_standards.data) r := by
  simp only [_generate_quality_block, blockSeg, quaBodyC, String.data_append,
    List.append_assoc]
  rfl

theorem penSeg (r : Chars) : _generate_penalties_block.data ++ r =
    blockSeg "PENALTIES".data penBodyC r := rfl

theorem confSegEnd : _generate_confidentiality_block.data =
    blockSeg "CONFIDENTIALITY".data confBodyC [] := rfl

/-- The rendered document, seen as the block sequence the scanner walks. -/
theorem generated_content_eq (g : DocumentGenerator) (f : ExtractedFields) :
    (generated_content g f).data = docSeq (genDocList g f) := by
  simp only [generated_content, String.data_append, List.append_assoc]
  rw [titleSeg, cidSeg, partiesSeg, buyerSeg, supSeg, scopeSeg, comSeg, delSeg,
    quaSeg, penSeg, confSegEnd]
  rfl

theorem firstEmpty_cons_ne {k v : String} {rest : List (String × String)}
    (hv : ¬ v = "") : firstEmpty ((k, v) :: rest) = firstEmpty rest := by
  show (if v = "" then some k else firstEmpty rest) = firstEmpty rest
  rw [if_neg hv]

theorem stripC_eq_nil_iff (l : Chars) :
    stripC l = [] ↔ ∀ c ∈ l, c.isWhitespace = true := by
  unfold stripC
  rw [List.reverse_eq_nil_iff, List.dropWhile_eq_nil_iff]
  constructor
  · intro h c hc
    rcases List.mem_append.mp (by
        rw [List.takeWhile_append_dropWhile (p := Char.isWhitespace) (l := l)]
        exact hc) with hc1 | hc2
    · exact List.mem_takeWhile_imp hc1
    · exact h c (List.mem_reverse.mpr hc2)
  · intro h c hc
    have hcmem : c ∈ l.dropWhile Char.isWhitespace := List.mem_reverse.mp hc
    exact h c ((List.dropWhile_sublist _).subset hcmem)

theorem mk_strip_take_ne (x y : Chars) (hx : x.all (fun c => c != '[') = true)
    (hw : x.any (fun c => !c.isWhitespace) = true) :
    String.mk (stripC ((x ++ y).takeWhile (fun c => c != '['))) ≠ "" := by
  intro h
  have hdata : stripC ((x ++ y).takeWhile (fun c => c != '[')) = [] := by
    have hd := congrArg String.data h
    simpa using hd
  rw [List.takeWhile_append_of_pos (by
    intro a ha
    exact List.all_eq_true.mp hx a ha)] at hdata
  rw [stripC_eq_nil_iff] at hdata
  obtain ⟨c, hcmem, hcw⟩ := List.any_eq_true.mp hw
  have hws := hdata c (List.mem_append_left _ hcmem)
  rw [hws] at hcw
  simp at hcw

/-- The main canonical-parse theorem: with marker-free substitutions the
eleven rendered blocks re-parse to exactly the canonical agreement. -/
theorem render_parse_canonical (g : DocumentGenerator) (f : ExtractedFields)
    (hg : cleanGen g = true) (hf : cleanFields f = true) :
    _parse_to_blocks (generated_content g f) = Except.ok (canonicalBlocks g f) := by
  simp only [cleanGen, cleanFields, cleanStr, Bool.and_eq_true,
    Bool.not_eq_true'] at hg hf
  obtain ⟨⟨hg1, hg2⟩, hg3⟩ := hg
  obtain ⟨⟨⟨⟨⟨⟨⟨hf1, hf2⟩, hf3⟩, hf4⟩, hf5⟩, hf6⟩, hf7⟩, hf8⟩ := hf
  have hL : ∀ e ∈ genDocList g f, hasSub bePat e.2.1 = false ∧
      blockNameOK e.1 = true ∧ e.2.2.all (fun c => c != '[') = true := by
    intro e he
    simp only [genDocList, List.mem_cons, List.not_mem_nil, or_false] at he
    rcases he with rfl | rfl | rfl | rfl | rfl | rfl | rfl | rfl | rfl | rfl | rfl
    · exact ⟨by decide, by decide, by decide⟩
    · refine ⟨(clean_no_markers (cidBody_clean _ _ _ hg3 hg1 hg2)).2, ?_, ?_⟩
      · show blockNameOK "CONTRACT ID".data = true
        decide
      · show ("\n\n\n".data).all (fun c => c != '[') = true
        decide
    · exact ⟨by decide, by decide, by decide⟩
    · refine ⟨(clean_no_markers (buyerBody_clean _ hf1)).2, ?_, ?_⟩
      · show blockNameOK "BUYER".data = true
        decide
      · show ("\n\n".data).all (fun c => c != '[') = true
        decide
    · refine ⟨(clean_no_markers (supBody_clean _ hf2)).2, ?_, ?_⟩
      · show blockNameOK "SUPPLIER".data = true
        decide
      · show ("\n\n".data).all (fun c => c != '[') = true
        decide
    · refine ⟨(clean_no_markers (scopeBody_clean _ _ hf3 hf4)).2, ?_, ?_⟩
      · show blockNameOK "SCOPE".data = true
        decide
      · show ("\n\n".data).all (fun c => c != '[') = true
        decide
    · refine ⟨(clean_no_markers (comBody_clean _ _ hf5 hf6)).2, ?_, ?_⟩
      · show blockNameOK "COMMERCIAL".data = true
        decide
      · show ("\n\n".data).all (fun c => c != '[') = true
        decide
    · refine ⟨(clean_no_markers (delBody_clean _ hf7)).2, ?_, ?_⟩
      · show blockNameOK "DELIVERY".data = true
        decide
      · show ("\n\n".data).all (fun c => c != '[') = true
        decide
    · refine ⟨(clean_no_markers (quaBody_clean _ hf8)).2, ?_, ?_⟩
      · show blockNameOK "QUALITY".data = true
        decide
      · show ("\n\n".data).all (fun c => c != '[') = true
        decide
    · exact ⟨by decide, by decide, by decide⟩
    · exact ⟨by decide, by decide, by decide⟩
  have hfa : findAllBlocks (generated_content g f).data =
      (genDocList g f).map (fun e => (e.1, e.2.1.takeWhile (fun c => c != '['))) := by
    unfold findAllBlocks
    rw [generated_content_eq g f]
    rw [@findAllAux_fuel (docSeq (genDocList g f)).length
      ((docSeq (genDocList g f)).length + blockFuel (genDocList g f))
      (docSeq (genDocList g f)) (Nat.le_refl _) (Nat.le_add_right _ _)]
    exact findAll_docSeq _ _ hL
  have hstore : storeBlocks
      ((genDocList g f).map (fun e => (e.1, e.2.1.takeWhile (fun c => c != '[')))) =
      canonicalBlocks g f := by
    simp only [genDocList, List.map_cons, List.map_nil, cidBodyC, buyerBodyC,
      supBodyC, scopeBodyC, comBodyC, delBodyC, quaBodyC, penBodyC, confBodyC,
      canonicalBlocks, parsedBody, String.data_append, List.append_assoc]
    rfl
  have hv1 : parsedBody "\nVendor Supply Agreement\n".data ≠ "" := by decide
  have hv2 : parsedBody ("\nContract ID: " ++ g.contract_id ++ "\nEffective Date: " ++
      g.today ++ "\nEnd Date: " ++ g.one_year_later ++ "\n").data ≠ "" := by
    unfold parsedBody
    simp only [String.data_append, List.append_assoc]
    exact mk_strip_take_ne _ _ (by decide) (by decide)
  have hv3 : parsedBody "\nThis Agreement is made between:\n".data ≠ "" := by decide
  have hv4 : parsedBody ("\nBuyer:\nEnterprise Name: " ++ f.buyer_name ++
      "\nAddress: [BUYER ADDRESS]\nAuthorized Representative: [BUYER REPRESENTATIVE]\n").data ≠ "" := by
    unfold parsedBody
    simp only [String.data_append, List.append_assoc]
    exact mk_strip_take_ne _ _ (by decide) (by decide)
  have hv5 : parsedBody ("\nSupplier:\nVendor Name: " ++ f.supplier_name ++
      "\nAddress: [SUPPLIER ADDRESS]\nAuthorized Representative: [SUPPLIER REPRESENTATIVE]\n").data ≠ "" := by
    unfold parsedBody
    simp only [String.data_append, List.append_assoc]
    exact mk_strip_take_ne _ _ (by decide) (by decide)
  have hv6 : parsedBody ("\n1. Scope of Agreement\nSupplier agrees to supply " ++
      f.product ++ " as per the specifications and quantities defined in PO-" ++
      f.po_reference ++
      ". Product must meet the food-grade quality standards prescribed by FSSAI.\n").data ≠ "" := by
    unfold parsedBody
    simp only [String.data_append, List.append_assoc]
    exact mk_strip_take_ne _ _ (by decide) (by decide)
  have hv7 : parsedBody ("\n2. Commercial Terms\nTotal Order Value: ₹" ++ f.price ++
      "\nPayment Terms: " ++ f.payment_terms ++
      "\nPrice Validity: Fixed for the contract period\nTaxes: Inclusive of GST (18%)\n").data ≠ "" := by
    unfold parsedBody
    simp only [String.data_append, List.append_assoc]
    exact mk_strip_take_ne _ _ (by decide) (by decide)
  have hv8 : parsedBody ("\n3. Delivery Terms\nDelivery Schedule: " ++ f.delivery ++
      "\nDelivery Address: [SPECIFY DELIVERY ADDRESS]\nDelivery Delays: Subject to penalty of ₹2,000 per day beyond 3-day grace period\n").data ≠ "" := by
    unfold parsedBody
    simp only [String.data_append, List.append_assoc]
    exact mk_strip_take_ne _ _ (by decide) (by decide)
  have hv9 : parsedBody ("\n4. Quality Assurance\nSupplier must adhere to " ++
      f.quality_standards ++
      "\nBuyer reserves the right to conduct periodic inspections\nRejected material will be returned at supplier\x27s cost within 7 days\n").data ≠ "" := by
    unfold parsedBody
    simp only [String.data_append, List.append_assoc]
    exact mk_strip_take_ne _ _ (by decide) (by decide)
  have hv10 : parsedBody "\n5. Penalties & Liabilities\nPenalty Clause: 5% deduction for any batch with more than 2% foreign matter\nInsurance: Supplier shall insure all shipments against transit damage\nIndemnity: Supplier will indemnify the buyer against any third-party claims due to quality failure\n".data ≠ "" := by
    decide
  have hv11 : parsedBody "\n6. Confidentiality\nBoth parties agree to maintain the confidentiality of all business information\nexchanged under this agreement and not disclose it to third parties without\nprior written consent. This obligation survives termination of the agreement.\n".data ≠ "" := by
    decide
  have hfe : firstEmpty (canonicalBlocks g f) = none := by
    simp only [canonicalBlocks]
    rw [firstEmpty_cons_ne hv1, firstEmpty_cons_ne hv2, firstEmpty_cons_ne hv3,
      firstEmpty_cons_ne hv4, firstEmpty_cons_ne hv5, firstEmpty_cons_ne hv6,
      firstEmpty_cons_ne hv7, firstEmpty_cons_ne hv8, firstEmpty_cons_ne hv9,
      firstEmpty_cons_ne hv10, firstEmpty_cons_ne hv11]
    rfl
  simp only [_parse_to_blocks]
  rw [hfa, hstore, hfe]

/-- C1: the claim says the single-block endpoint returns a success response
for every recognized block name; in fact `_parse_to_blocks` validates all 11
keys, so a single block always trips the `Missing required block` ValueError
and the endpoint returns the generic error envelope.  Shown at block name
"title" with prompt "hello" on a fresh generator. -/
theorem C1_single_block_always_error_envelope :
    generate_single_block refGen defaultFields "title" "hello" =
      BlockResponse.statusError "Missing required block: contract_id" := by decide

/-- C2: the claim says extraction never fails; on "price 100" the price rule
matches without a currency symbol, its first capture group is None, and
`.strip()` raises AttributeError. -/
theorem C2_extraction_raises_on_bare_price :
    _parse_user_prompt "price 100" =
      Except.error "\x27NoneType\x27 object has no attribute \x27strip\x27" := by decide


/-- C5: the claim says the extracted price equals the matched digit run; the
code returns the first capture group, which is the currency symbol, so for
"price ₹100" the price field is "₹", not "100". -/
theorem C5_price_field_is_currency_symbol :
    (_parse_user_prompt "price ₹100").toOption.map ExtractedFields.price = some "₹" ∧
      ("₹" : String) ≠ "100" := by decide






/-- C9 counterexample: with the unrecognized block name "bogus" and the
non-empty prompt "price 100", the endpoint returns the generic
{status, message} envelope (extraction raises before the name check), not the
invalid-name shape. -/
theorem C9_counterexample_extraction_raises_first :
    generate_single_block refGen defaultFields "bogus" "price 100" =
      BlockResponse.statusError "\x27NoneType\x27 object has no attribute \x27strip\x27" := by
  decide

/-- `generate_agreement` seen through a successful extraction. -/
theorem generate_agreement_ok {g : DocumentGenerator} {p : String}
    {f : ExtractedFields} (h : _parse_user_prompt p = Except.ok f) :
    generate_agreement g p = _parse_to_blocks (generated_content g f) := by
  unfold generate_agreement
  rw [h]

theorem dropWhile_dropWhile (p : Char → Bool) (l : Chars) :
    List.dropWhile p (List.dropWhile p l) = List.dropWhile p l := by
  induction l with
  | nil => rfl
  | cons c r ih =>
    by_cases hp : p c
    · rw [List.dropWhile_cons_of_pos hp]
      exact ih
    · rw [List.dropWhile_cons_of_neg hp, List.dropWhile_cons_of_neg hp]

theorem dropWhile_head_false {p : Char → Bool} : ∀ (l : Chars) {c : Char}
    {r : Chars}, List.dropWhile p l = c :: r → p c = false := by
  intro l
  induction l with
  | nil => intro c r h; simp at h
  | cons a t ih =>
    intro c r h
    by_cases hp : p a
    · rw [List.dropWhile_cons_of_pos hp] at h
      exact ih h
    · rw [List.dropWhile_cons_of_neg hp] at h
      injection h with h1 h2
      rw [← h1]
      cases hb : p a with
      | false => rfl
      | true => exact absurd hb hp

theorem getLast?_append_right {α : Type} (u : List α) {v : List α} {c : α}
    {r : List α} (h : v.reverse = c :: r) : (u ++ v).getLast? = some c := by
  rw [← List.head?_reverse, List.reverse_append, h]
  rfl

theorem getLast?_reverse_head? (x : Chars) : x.reverse.getLast? = x.head? := by
  rw [← List.head?_reverse, List.reverse_reverse]

/-- The first character of a stripped string is not whitespace. -/
theorem stripC_head_nonws (l : Chars) {c : Char} {r : Chars}
    (h : stripC l = c :: r) : c.isWhitespace = false := by
  have hBrev : ((l.dropWhile Char.isWhitespace).reverse.dropWhile
      Char.isWhitespace).reverse = c :: r := h
  have hsplit : (l.dropWhile Char.isWhitespace).reverse =
      (l.dropWhile Char.isWhitespace).reverse.takeWhile Char.isWhitespace ++
        (l.dropWhile Char.isWhitespace).reverse.dropWhile Char.isWhitespace :=
    (List.takeWhile_append_dropWhile Char.isWhitespace _).symm
  have hlast : (l.dropWhile Char.isWhitespace).reverse.getLast? = some c := by
    rw [hsplit]
    exact getLast?_append_right _ hBrev
  have hhead : (l.dropWhile Char.isWhitespace).head? = some c := by
    rw [← getLast?_reverse_head?]
    exact hlast
  cases hA : l.dropWhile Char.isWhitespace with
  | nil =>
    rw [hA] at hhead
    simp at hhead
  | cons a t =>
    rw [hA] at hhead
    have hac : a = c := by simpa using hhead
    rw [← hac]
    exact dropWhile_head_false l hA

/-- Python `strip` is idempotent. -/
theorem stripC_idem (l : Chars) : stripC (stripC l) = stripC l := by
  cases h : stripC l with
  | nil => rfl
  | cons c r =>
    have hc : c.isWhitespace = false := stripC_head_nonws l h
    have hcn : ¬ Char.isWhitespace c = true := by
      rw [hc]
      exact Bool.false_ne_true
    have h1 : (c :: r).dropWhile Char.isWhitespace = c :: r := by
      rw [List.dropWhile_cons_of_neg hcn]
    show (((c :: r).dropWhile Char.isWhitespace).reverse.dropWhile
        Char.isWhitespace).reverse = c :: r
    rw [h1]
    have hB : (c :: r).reverse =
        (l.dropWhile Char.isWhitespace).reverse.dropWhile Char.isWhitespace := by
      have h2 := congrArg List.reverse h
      have h3 : (stripC l).reverse =
          (l.dropWhile Char.isWhitespace).reverse.dropWhile Char.isWhitespace :=
        List.reverse_reverse _
      rw [h3] at h2
      exact h2.symm
    have hdrop : (c :: r).reverse.dropWhile Char.isWhitespace = (c :: r).reverse := by
      rw [hB]
      exact dropWhile_dropWhile _ _
    rw [hdrop, List.reverse_reverse]

/-- Every canonical block value is non-empty and already stripped. -/
theorem canonicalBlocks_values (g : DocumentGenerator) (f : ExtractedFields) :
    ∀ kv ∈ canonicalBlocks g f, kv.2 ≠ "" ∧ String.mk (stripC kv.2.data) = kv.2 := by
  have htrim : ∀ (b : Chars), String.mk (stripC (parsedBody b).data) = parsedBody b := by
    intro b
    show String.mk (stripC (stripC (b.takeWhile (fun c => c != '[')))) = _
    rw [stripC_idem]
    rfl
  intro kv hkv
  simp only [canonicalBlocks, List.mem_cons, List.not_mem_nil, or_false] at hkv
  rcases hkv with rfl | rfl | rfl | rfl | rfl | rfl | rfl | rfl | rfl | rfl | rfl
  · exact ⟨by decide, htrim _⟩
  · refine ⟨?_, htrim _⟩
    show parsedBody ("\nContract ID: " ++ g.contract_id ++ "\nEffective Date: " ++
      g.today ++ "\nEnd Date: " ++ g.one_year_later ++ "\n").data ≠ ""
    unfold parsedBody
    simp only [String.data_append, List.append_assoc]
    exact mk_strip_take_ne _ _ (by decide) (by decide)
  · exact ⟨by decide, htrim _⟩
  · refine ⟨?_, htrim _⟩
    show parsedBody ("\nBuyer:\nEnterprise Name: " ++ f.buyer_name ++
      "\nAddress: [BUYER ADDRESS]\nAuthorized Representative: [BUYER REPRESENTATIVE]\n").data ≠ ""
    unfold parsedBody
    simp only [String.data_append, List.append_assoc]
    exact mk_strip_take_ne _ _ (by decide) (by decide)
  · refine ⟨?_, htrim _⟩
    show parsedBody ("\nSupplier:\nVendor Name: " ++ f.supplier_name ++
      "\nAddress: [SUPPLIER ADDRESS]\nAuthorized Representative: [SUPPLIER REPRESENTATIVE]\n").data ≠ ""
    unfold parsedBody
    simp only [String.data_append, List.append_assoc]
    exact mk_strip_take_ne _ _ (by decide) (by decide)
  · refine ⟨?_, htrim _⟩
    show parsedBody ("\n1. Scope of Agreement\nSupplier agrees to supply " ++
      f.product ++ " as per the specifications and quantities defined in PO-" ++
      f.po_reference ++
      ". Product must meet the food-grade quality standards prescribed by FSSAI.\n").data ≠ ""
    unfold parsedBody
    simp only [String.data_append, List.append_assoc]
    exact mk_strip_take_ne _ _ (by decide) (by decide)
  · refine ⟨?_, htrim _⟩
    show parsedBody ("\n2. Commercial Terms\nTotal Order Value: ₹" ++ f.price ++
      "\nPayment Terms: " ++ f.payment_terms ++
      "\nPrice Validity: Fixed for the contract period\nTaxes: Inclusive of GST (18%)\n").data ≠ ""
    unfold parsedBody
    simp only [String.data_append, List.append_assoc]
    exact mk_strip_take_ne _ _ (by decide) (by decide)
  · refine ⟨?_, htrim _⟩
    show parsedBody ("\n3. Delivery Terms\nDelivery Schedule: " ++ f.delivery ++
      "\nDelivery Address: [SPECIFY DELIVERY ADDRESS]\nDelivery Delays: Subject to penalty of ₹2,000 per day beyond 3-day grace period\n").data ≠ ""
    unfold parsedBody
    simp only [String.data_append, List.append_assoc]
    exact mk_strip_take_ne _ _ (by decide) (by decide)
  · refine ⟨?_, htrim _⟩
    show parsedBody ("\n4. Quality Assurance\nSupplier must adhere to " ++
      f.quality_standards ++
      "\nBuyer reserves the right to conduct periodic inspections\nRejected material will be returned at supplier\x27s cost within 7 days\n").data ≠ ""
    unfold parsedBody
    simp only [String.data_append, List.append_assoc]
    exact mk_strip_take_ne _ _ (by decide) (by decide)
  · exact ⟨by decide, htrim _⟩
  · exact ⟨by decide, htrim _⟩

/-- C10: a rendered block body that contains a bracketed placeholder is
truncated at its first `[` by the closing pattern `\[.*? BLOCK END\]`; for the
empty prompt the parsed buyer block is exactly "Buyer:\nEnterprise Name:" —
the address and representative lines are lost. -/
theorem C10_truncated_buyer_block :
    getBlockRes (generate_agreement refGen "") "buyer" =
      some "Buyer:\nEnterprise Name:" := by
  rw [generate_agreement_ok
      (show _parse_user_prompt "" = Except.ok defaultFields from by decide),
    render_parse_canonical refGen defaultFields (by decide) (by decide)]
  decide

/-- C4: the claim says the commercial block contains "₹50000" and "Net 30"
for the given prompt; in fact the price rule cannot match "price: ₹50000"
(the class `[: ]` spans one character, not the two of ": "), so the price
placeholder is rendered, and the parser then truncates the commercial body at
the placeholder bracket: the parsed block is "2. Commercial Terms\nTotal
Order Value: ₹", containing neither literal; even the rendered (pre-parse)
block lacks "₹50000". -/
theorem C4_commercial_block_lacks_literals :
    getBlockRes
        (generate_agreement refGen "Supplier: FreshCo, price: ₹50000, payment: Net 30")
        "commercial" = some "2. Commercial Terms\nTotal Order Value: ₹" ∧
      hasSub "₹50000".data "2. Commercial Terms\nTotal Order Value: ₹".data = false ∧
      hasSub "Net 30".data "2. Commercial Terms\nTotal Order Value: ₹".data = false ∧
      hasSub "₹50000".data (_generate_commercial_block C4fields).data = false := by
  refine ⟨?_, by decide, by decide, by decide⟩
  rw [generate_agreement_ok
      (show _parse_user_prompt "Supplier: FreshCo, price: ₹50000, payment: Net 30" =
        Except.ok C4fields from by decide),
    render_parse_canonical refGen C4fields (by decide) (by decide)]
  decide

/-- C3 counterexample: on the prompt "price 100" the extractor raises (the
price rule matches with no currency symbol and `.strip()` hits None), so
`generate_agreement` propagates the exception and returns no mapping at
all — the 11-key invariant fails for this prompt. -/
theorem C3_counterexample_crash_prompt :
    generate_agreement refGen "price 100" =
      Except.error "\x27NoneType\x27 object has no attribute \x27strip\x27" := by
  decide

/-- C3 (amended): whenever extraction succeeds and the substituted values are
free of the marker word "BLOCK", `generate_agreement` returns the canonical
agreement: exactly the 11 fixed keys in order, every value non-empty and
already stripped. -/
theorem C3_amended_eleven_nonempty_trimmed (g : DocumentGenerator)
    (f : ExtractedFields) (p : String) (hg : cleanGen g = true)
    (hp : _parse_user_prompt p = Except.ok f) (hf : cleanFields f = true) :
    generate_agreement g p = Except.ok (canonicalBlocks g f) ∧
      (canonicalBlocks g f).map Prod.fst = blockKeys ∧
      ∀ kv ∈ canonicalBlocks g f, kv.2 ≠ "" ∧ String.mk (stripC kv.2.data) = kv.2 := by
  refine ⟨?_, rfl, canonicalBlocks_values g f⟩
  rw [generate_agreement_ok hp]
  exact render_parse_canonical g f hg hf

/-- Witness for the amended C3 at the empty prompt. -/
theorem C3_amended_witness :
    cleanGen refGen = true ∧ _parse_user_prompt "" = Except.ok defaultFields ∧
      cleanFields defaultFields = true ∧
      (generate_agreement refGen "" = Except.ok (canonicalBlocks refGen defaultFields) ∧
        (canonicalBlocks refGen defaultFields).map Prod.fst = blockKeys ∧
        ∀ kv ∈ canonicalBlocks refGen defaultFields,
          kv.2 ≠ "" ∧ String.mk (stripC kv.2.data) = kv.2) :=
  ⟨by decide, by decide, by decide,
    C3_amended_eleven_nonempty_trimmed refGen defaultFields "" (by decide) (by decide)
      (by decide)⟩

/-- C6 (amended): for every fields mapping whose substituted values are free
of the marker word "BLOCK", rendering the 11 blocks and re-parsing recovers a
mapping whose key list is exactly the 11 fixed block names. -/
theorem C6_amended_roundtrip_keys (g : DocumentGenerator) (f : ExtractedFields)
    (hg : cleanGen g = true) (hf : cleanFields f = true) :
    _parse_to_blocks (generated_content g f) = Except.ok (canonicalBlocks g f) ∧
      (canonicalBlocks g f).map Prod.fst = blockKeys :=
  ⟨render_parse_canonical g f hg hf, rfl⟩

/-- Witness for the amended C6 at the default fields. -/
theorem C6_amended_witness :
    cleanGen refGen = true ∧ cleanFields defaultFields = true ∧
      (_parse_to_blocks (generated_content refGen defaultFields) =
          Except.ok (canonicalBlocks refGen defaultFields) ∧
        (canonicalBlocks refGen defaultFields).map Prod.fst = blockKeys) :=
  ⟨by decide, by decide, C6_amended_roundtrip_keys refGen defaultFields (by decide)
    (by decide)⟩

/-- C7 counterexample: "Buyer: Acme Foodsy" contains the substring
"Buyer: Acme Foods", but the greedy `[A-Za-z0-9 &]+` capture takes
"Acme Foodsy", so the buyer name field is not "Acme Foods". -/
theorem C7_counterexample_greedy_overcapture :
    hasSub "Buyer: Acme Foods".data "Buyer: Acme Foodsy".data = true ∧
      (getBlockRes (generate_agreement refGen "Buyer: Acme Foodsy") "buyer").bind
          (fieldAfter "Enterprise Name: ") = some "Acme Foodsy" ∧
      ("Acme Foodsy" : String) ≠ "Acme Foods" := by
  refine ⟨by decide, ?_, by decide⟩
  rw [generate_agreement_ok
      (show _parse_user_prompt "Buyer: Acme Foodsy" = Except.ok C7badFields from
        by decide),
    render_parse_canonical refGen C7badFields (by decide) (by decide)]
  decide

/-- C7 (amended): whenever extraction succeeds with buyer name exactly
"Acme Foods" (and the substituted values are marker-free), the buyer block's
name field of the generated agreement is "Acme Foods". -/
theorem C7_amended_buyer_name_roundtrip (g : DocumentGenerator)
    (f : ExtractedFields) (p : String) (hg : cleanGen g = true)
    (hp : _parse_user_prompt p = Except.ok f) (hf : cleanFields f = true)
    (hb : f.buyer_name = "Acme Foods") :
    (getBlockRes (generate_agreement g p) "buyer").bind
      (fieldAfter "Enterprise Name: ") = some "Acme Foods" := by
  rw [generate_agreement_ok hp, render_parse_canonical g f hg hf]
  have h4 : getBlockRes (Except.ok (canonicalBlocks g f)) "buyer" =
      some (parsedBody ("\nBuyer:\nEnterprise Name: " ++ f.buyer_name ++
        "\nAddress: [BUYER ADDRESS]\nAuthorized Representative: [BUYER REPRESENTATIVE]\n").data) :=
    rfl
  rw [h4, hb]
  decide

/-- Witness for the amended C7 at the prompt "Buyer: Acme Foods". -/
theorem C7_amended_witness :
    cleanGen refGen = true ∧
      _parse_user_prompt "Buyer: Acme Foods" = Except.ok C7okFields ∧
      cleanFields C7okFields = true ∧ C7okFields.buyer_name = "Acme Foods" ∧
      (getBlockRes (generate_agreement refGen "Buyer: Acme Foods") "buyer").bind
          (fieldAfter "Enterprise Name: ") = some "Acme Foods" :=
  ⟨by decide, by decide, by decide, by decide,
    C7_amended_buyer_name_roundtrip refGen C7okFields "Buyer: Acme Foods" (by decide)
      (by decide) (by decide) (by decide)⟩

/-- C8 counterexample: for the empty prompt (no buyer mention) the buyer
block of the generated agreement is truncated before the name placeholder
ever appears — the name field is gone entirely, not "[BUYER NAME]". -/
theorem C8_counterexample_placeholder_lost :
    searchPos attemptBuyer "".data = none ∧
      (getBlockRes (generate_agreement refGen "") "buyer").bind
        (fieldAfter "Enterprise Name: ") = none := by
  refine ⟨by decide, ?_⟩
  rw [generate_agreement_ok
      (show _parse_user_prompt "" = Except.ok defaultFields from by decide),
    render_parse_canonical refGen defaultFields (by decide) (by decide)]
  decide

/-- C8 (amended): when the buyer rule finds no match in the prompt, the
rendered (pre-parse) buyer block carries the placeholder "[BUYER NAME]" as
its name field; the placeholder is lost only in the later parse step. -/
theorem C8_amended_rendered_placeholder (p : String) (f : ExtractedFields)
    (hm : searchPos attemptBuyer p.data = none)
    (hf : f.buyer_name = buyer_name_of p) :
    fieldAfter "Enterprise Name: " (_generate_buyer_block f) =
      some "[BUYER NAME]" := by
  have hb : f.buyer_name = "[BUYER NAME]" := by
    rw [hf]
    unfold buyer_name_of
    rw [hm]
    decide
  unfold _generate_buyer_block
  rw [hb]
  decide

/-- Witness for the amended C8 at the empty prompt. -/
theorem C8_amended_witness :
    searchPos attemptBuyer "".data = none ∧
      defaultFields.buyer_name = buyer_name_of "" ∧
      fieldAfter "Enterprise Name: " (_generate_buyer_block defaultFields) =
        some "[BUYER NAME]" :=
  ⟨by decide, by decide,
    C8_amended_rendered_placeholder "" defaultFields (by decide) (by decide)⟩

/-- C9 (amended): with a non-empty prompt on which extraction does not raise,
an unrecognized block name makes the endpoint return the invalid-name error
shape (and nothing else). -/
theorem C9_amended_invalid_name (g : DocumentGenerator) (st : ExtractedFields)
    (block_name user_prompt : String) (hne : user_prompt ≠ "")
    (hok : (_parse_user_prompt user_prompt).toOption.isSome = true)
    (hn : block_name ∉ blockKeys) :
    generate_single_block g st block_name user_prompt =
      BlockResponse.invalidName := by
  simp only [blockKeys, List.mem_cons, List.not_mem_nil, or_false, not_or] at hn
  obtain ⟨n1, n2, n3, n4, n5, n6, n7, n8, n9, n10, n11⟩ := hn
  have hpick : pickBlock g st block_name = none := by
    unfold pickBlock
    rw [if_neg n1, if_neg n2, if_neg n3, if_neg n4, if_neg n5, if_neg n6, if_neg n7,
      if_neg n8, if_neg n9, if_neg n10, if_neg n11]
  unfold generate_single_block
  rw [if_neg hne]
  cases hpar : _parse_user_prompt user_prompt with
  | error e =>
    rw [hpar] at hok
    simp [Except.toOption] at hok
  | ok f =>
    show (match pickBlock g st block_name with
      | none => BlockResponse.invalidName
      | some content =>
        match _parse_to_blocks content with
        | Except.error e => BlockResponse.statusError e
        | Except.ok parsed =>
          BlockResponse.success block_name (lookupBlock parsed block_name)) =
      BlockResponse.invalidName
    rw [hpick]

/-- Witness for the amended C9: name "bogus", prompt "hello". -/
theorem C9_amended_witness :
    ("hello" : String) ≠ "" ∧
      (_parse_user_prompt "hello").toOption.isSome = true ∧
      "bogus" ∉ blockKeys ∧
      generate_single_block refGen defaultFields "bogus" "hello" =
        BlockResponse.invalidName :=
  ⟨by decide, by decide, by decide,
    C9_amended_invalid_name refGen defaultFields "bogus" "hello" (by decide)
      (by decide) (by decide)⟩

/-- `matchBlock` on a block whose closing marker carries a different name:
the regex does not compare the two names. -/
theorem matchBlock_block2 (n m b z : Chars) (hb : hasSub bePat b = false)
    (hn : blockNameOK2 n m = true) :
    matchBlock (n ++ (bsPat ++ (b ++ ('[' :: (m ++ (bePat ++ z)))))) =
      some (n, b.takeWhile (fun c => c != '['), z) := by
  have hn' : _ := hn
  simp only [blockNameOK2, Bool.and_eq_true] at hn'
  obtain ⟨h0, h1, h2⟩ := hn'
  have hs : splitFirst bsPat (n ++ (bsPat ++ (b ++ ('[' :: (m ++ (bePat ++ z)))))) =
      some (n, b ++ ('[' :: (m ++ (bePat ++ z)))) := by
    have h := splitFirst_append_hit bsPat (by decide) (n ++ bsPat)
      n.length (b ++ ('[' :: (m ++ (bePat ++ z)))) h0
    rw [List.append_assoc] at h
    rw [h, List.take_left' rfl]
    have hdl : (n ++ bsPat).drop (n.length + bsPat.length) = [] := by
      have hlen : n.length + bsPat.length = (n ++ bsPat).length :=
        (List.length_append _ _).symm
      rw [hlen, List.drop_length]
    rw [hdl, List.nil_append]
  unfold matchBlock
  rw [hs]
  show (match contentScan (b ++ ('[' :: (m ++ (bePat ++ z)))) with
      | none => none
      | some (bb, rest) => some (n, bb, rest)) =
    some (n, b.takeWhile (fun c => c != '['), z)
  rw [contentScan_body m b z hb h1 h2]

theorem findAllAux_block2 (f : Nat) (n m b z : Chars)
    (hb : hasSub bePat b = false) (hn : blockNameOK2 n m = true) :
    findAllAux (f + 1) (blockSeg2 n m b z) =
      (n, b.takeWhile (fun c => c != '[')) :: findAllAux f z := by
  have h := matchBlock_block2 n m b z hb hn
  show (if ('[' : Char) = '[' then
      match matchBlock (n ++ (bsPat ++ (b ++ ('[' :: (m ++ (bePat ++ z)))))) with
      | some (nn, bb, rest) => (nn, bb) :: findAllAux f rest
      | none => findAllAux f (n ++ (bsPat ++ (b ++ ('[' :: (m ++ (bePat ++ z))))))
    else findAllAux f (n ++ (bsPat ++ (b ++ ('[' :: (m ++ (bePat ++ z))))))) = _
  rw [if_pos rfl, h]

theorem findAll_docSeq2 : ∀ (L : List (Chars × Chars × Chars × Chars)) (f : Nat),
    (∀ e ∈ L, hasSub bePat e.2.2.1 = false ∧ blockNameOK2 e.1 e.2.1 = true ∧
      e.2.2.2.all (fun c => c != '[') = true) →
    findAllAux (f + blockFuel2 L) (docSeq2 L) =
      L.map (fun e => (e.1, e.2.2.1.takeWhile (fun c => c != '['))) := by
  intro L
  induction L with
  | nil => intro f _; simp [docSeq2, blockFuel2, findAllAux_nil]
  | cons e rest ih =>
    intro f hL
    obtain ⟨n, m, b, sep⟩ := e
    obtain ⟨hb, hn, hsep⟩ := hL _ (List.mem_cons_self _ _)
    have hrest := fun e he => hL e (List.mem_cons_of_mem _ he)
    show findAllAux (f + (blockFuel2 rest + sep.length + 1))
      (blockSeg2 n m b (sep ++ docSeq2 rest)) = _
    have harr : f + (blockFuel2 rest + sep.length + 1) =
        ((f + blockFuel2 rest) + sep.length) + 1 := by omega
    rw [harr, findAllAux_block2 _ n m b _ hb hn, findAllAux_skip sep _ _ hsep,
      ih _ hrest]
    rfl

/-- The quality block rendered from `injFields`, together with the penalties
block that follows it, regrouped as the scanner sees them: an early-closed
quality block and a pseudo-block whose name swallows the penalties start
marker. -/
theorem quaInjSeg (r : Chars) :
    (_generate_quality_block injFields).data ++ ("\n\n".data ++
      (_generate_penalties_block.data ++ r)) =
    blockSeg2 "QUALITY".data "QUALITY".data injQuaBody
      (injSep9 ++ blockSeg2 injName10 "PENALTIES".data penBodyC r) := by
  simp only [_generate_quality_block, _generate_penalties_block, injFields,
    defaultFields, blockSeg2, injQuaBody, injSep9, injName10, penBodyC, bsPat,
    bePat, String.data_append, List.append_assoc]
  rfl

/-- The document rendered from `injFields`, as the block sequence the scanner
actually walks. -/
theorem inj_content_eq :
    (generated_content refGen injFields).data = docSeq2 injList := by
  simp only [generated_content, String.data_append, List.append_assoc]
  rw [titleSeg, cidSeg, partiesSeg, buyerSeg, supSeg, scopeSeg, comSeg, delSeg,
    quaInjSeg, confSegEnd]
  rfl

/-- C6 counterexample: a field value containing an end marker closes the
quality block early; the scanner then captures a pseudo-block whose name
swallows the penalties start marker, so the penalties key is never stored and
the round trip raises instead of recovering the 11 keys. -/
theorem C6_counterexample_marker_injection :
    _parse_to_blocks (generated_content refGen injFields) =
      Except.error "Missing required block: penalties" := by
  have hL : ∀ e ∈ injList, hasSub bePat e.2.2.1 = false ∧
      blockNameOK2 e.1 e.2.1 = true ∧ e.2.2.2.all (fun c => c != '[') = true := by
    intro e he
    simp only [injList, List.mem_cons, List.not_mem_nil, or_false] at he
    rcases he with rfl | rfl | rfl | rfl | rfl | rfl | rfl | rfl | rfl | rfl | rfl <;>
      exact ⟨by decide, by decide, by decide⟩
  have hfa : findAllBlocks (generated_content refGen injFields).data =
      injList.map (fun e => (e.1, e.2.2.1.takeWhile (fun c => c != '['))) := by
    unfold findAllBlocks
    rw [inj_content_eq]
    rw [@findAllAux_fuel (docSeq2 injList).length
      ((docSeq2 injList).length + blockFuel2 injList) (docSeq2 injList)
      (Nat.le_refl _) (Nat.le_add_right _ _)]
    exact findAll_docSeq2 _ _ hL
  simp only [_parse_to_blocks]
  rw [hfa]
  decide
